import Mathlib

/-!
# Product catalog API (`src/index.js`, `src/server.js`)

A shallow embedding of the two Express servers of the repository.  Each route
handler becomes a function from the persistence state and the request to the
HTTP response and the new persistence state.

* JavaScript values that a request body field or a stored column can hold are
  `JsVal`; the built-ins the handlers use (`||`, `? :`, `parseFloat`) are
  embedded after ECMA-262.
* A finite number is the rational it stands for; `parseFloat` rounds the
  value of a numeral to the nearest IEEE 754 double, `Infinity` beyond the
  range.  The sign of zero is not modelled.
* The Prisma client is the persistence provider.  Its schema is not part of
  the sources, so the schema validation and the id generator are parameters
  (`Provider`); the rest of the provider is an in-memory table.
-/

namespace GeizaBolos

/-! ## JavaScript values -/

/-- A JavaScript number: `NaN`, an infinity, or a finite value. -/
inductive JsNum where
  | nan
  | inf (negative : Bool)
  | fin (q : ℚ)
  deriving DecidableEq, Repr

/-- A JavaScript value as it reaches a handler.  An array or plain object is
kept only through what the handlers can observe of it: it is truthy, and
`ToString` applied to it gives `toStr` (`none` when `ToString` throws a
`TypeError`). -/
inductive JsVal where
  | undefined
  | null
  | bool (b : Bool)
  | num (n : JsNum)
  | str (s : String)
  | object (toStr : Option String)
  deriving DecidableEq, Repr

/-- ECMA-262 `ToBoolean`. -/
def truthy : JsVal → Bool
  | .undefined => false
  | .null => false
  | .bool b => b
  | .num .nan => false
  | .num (.inf _) => true
  | .num (.fin q) => decide (q ≠ 0)
  | .str s => decide (s ≠ "")
  | .object _ => true

/-- The JavaScript expression `a || b`. -/
def jsOr (a b : JsVal) : JsVal := if truthy a then a else b

/-! ## `parseFloat` -/

/-- The code points of `WhiteSpace` and `LineTerminator`, which `parseFloat`
strips from the start of its input. -/
def isStrWhiteSpaceChar (c : Char) : Bool :=
  let n := c.toNat
  n == 9 || n == 10 || n == 11 || n == 12 || n == 13 || n == 32 || n == 160 ||
  n == 0x1680 || (0x2000 ≤ n && n ≤ 0x200A) || n == 0x2028 || n == 0x2029 ||
  n == 0x202F || n == 0x205F || n == 0x3000 || n == 0xFEFF

/-- Mathematical value of a run of decimal digits. -/
def digitsValue (ds : List Char) : Nat :=
  ds.foldl (fun acc c => 10 * acc + (c.toNat - 48)) 0

/-- The exponent part `e[+-]digits` at the start of `cs`, when it is
complete; otherwise the literal ends before it and the exponent is 0. -/
def exponentValue (cs : List Char) : Int :=
  match cs with
  | [] => 0
  | c :: rest =>
    if c == 'e' || c == 'E' then
      match rest with
      | '+' :: ds =>
        let run := ds.takeWhile Char.isDigit
        if run.isEmpty then 0 else (digitsValue run : Int)
      | '-' :: ds =>
        let run := ds.takeWhile Char.isDigit
        if run.isEmpty then 0 else - (digitsValue run : Int)
      | ds =>
        let run := ds.takeWhile Char.isDigit
        if run.isEmpty then 0 else (digitsValue run : Int)
    else 0

/-- The rational `m * 10 ^ e`. -/
def scale10 (m : Nat) (e : Int) : ℚ :=
  if 0 ≤ e then mkRat ((m : Int) * 10 ^ e.toNat) 1 else mkRat (m : Int) (10 ^ (-e).toNat)

/-- Value of the longest prefix of `cs` that is a `StrUnsignedDecimalLiteral`
(`Infinity`, `digits[.digits][exp]` or `.digits[exp]`), `none` when no prefix
is one.  The result is non-negative; `true` stands for `Infinity`. -/
def parseUnsigned (cs : List Char) : Option (Bool × ℚ) :=
  if "Infinity".toList.isPrefixOf cs then some (true, 0)
  else
    let ip := cs.takeWhile Char.isDigit
    let r1 := cs.dropWhile Char.isDigit
    match r1 with
    | '.' :: r2 =>
      let fp := r2.takeWhile Char.isDigit
      let r3 := r2.dropWhile Char.isDigit
      if ip.isEmpty && fp.isEmpty then none
      else some (false, scale10 (digitsValue (ip ++ fp)) (exponentValue r3 - fp.length))
    | _ =>
      if ip.isEmpty then none
      else some (false, scale10 (digitsValue ip) (exponentValue r1))

/-- Number of binary digits of `n`, by halving. -/
def bitLengthAux : Nat → Nat → Nat
  | 0, _ => 0
  | fuel + 1, n => if n = 0 then 0 else bitLengthAux fuel (n / 2) + 1

/-- Number of binary digits of `n`. -/
def bitLength (n : Nat) : Nat := bitLengthAux n n

/-- The integer `e` with `2 ^ e ≤ n / d < 2 ^ (e + 1)`, for positive `n` and
`d`. -/
def floorLog2 (n d : Nat) : Int :=
  let e0 : Int := (bitLength n : Int) - (bitLength d : Int)
  let reached : Bool :=
    if 0 ≤ e0 then decide (d * 2 ^ e0.toNat ≤ n) else decide (d ≤ n * 2 ^ (-e0).toNat)
  if reached then e0 else e0 - 1

/-- The integer nearest to `n / d`, the even one on a tie. -/
def roundHalfEven (n d : Nat) : Nat :=
  let f := n / d
  let r := n % d
  if 2 * r < d then f else if d < 2 * r then f + 1 else if f % 2 = 0 then f else f + 1

/-- The IEEE 754 binary64 value nearest to the non-negative rational `q`
(round to nearest, ties to even; 53 significant bits, least exponent -1022,
so the spacing never goes below `2 ^ -1074`); `none` when the rounded value
reaches `2 ^ 1024`, which is `Infinity`. -/
def roundToDouble (q : ℚ) : Option ℚ :=
  let n := q.num.natAbs
  let d := q.den
  if n = 0 then some 0
  else
    let k : Int := max (floorLog2 n d) (-1022) - 52
    if 0 ≤ k then
      let m := roundHalfEven n (d * 2 ^ k.toNat)
      if 2 ^ 1024 ≤ m * 2 ^ k.toNat then none else some (mkRat ((m * 2 ^ k.toNat : Nat) : Int) 1)
    else some (mkRat ((roundHalfEven (n * 2 ^ (-k).toNat) d : Nat) : Int) (2 ^ (-k).toNat))

/-- The Number value for the mathematical value of magnitude `q` and the
given sign. -/
def numberOfMagnitude (negative : Bool) (q : ℚ) : JsNum :=
  match roundToDouble q with
  | none => .inf negative
  | some v => .fin (if negative then -v else v)

/-- The optional sign at the start of the literal: whether it is a minus, and
what follows it. -/
def splitSign (cs : List Char) : Bool × List Char :=
  match cs with
  | '-' :: rest => (true, rest)
  | '+' :: rest => (false, rest)
  | _ => (false, cs)

/-- The function `parseFloat` on a string. -/
def parseFloatString (s : String) : JsNum :=
  let trimmed := s.toList.dropWhile isStrWhiteSpaceChar
  let signed := splitSign trimmed
  match parseUnsigned signed.2 with
  | none => .nan
  | some (true, _) => .inf signed.1
  | some (false, q) => numberOfMagnitude signed.1 q

/-- ECMA-262 `ToString` on the values that are not numbers; `none` is a thrown
`TypeError`. -/
def toStringNonNumber : JsVal → Option String
  | .undefined => some "undefined"
  | .null => some "null"
  | .bool true => some "true"
  | .bool false => some "false"
  | .str s => some s
  | .object t => t
  | .num _ => none

/-- The function `parseFloat(v)`: `ToString(v)` and then the prefix parse;
`none` is a thrown `TypeError`.  On a number the decimal text that `ToString`
produces denotes the number itself, so the parse gives it back. -/
def parseFloat : JsVal → Option JsNum
  | .num n => some n
  | v => (toStringNonNumber v).map parseFloatString

/-! ## Numerals, as a client writes them -/

/-- A decimal numeral: an optional minus sign, integer digits, fraction digits
(written after a point when there are any) and an optional exponent with its
sign. -/
structure NumericText where
  negative : Bool
  intDigits : List (Fin 10)
  fracDigits : List (Fin 10)
  exponent : Option (Bool × List (Fin 10))

/-- The character of a decimal digit. -/
def digitChar (d : Fin 10) : Char := Char.ofNat (48 + d.val)

/-- The characters of the exponent part of a numeral. -/
def exponentChars : Option (Bool × List (Fin 10)) → List Char
  | none => []
  | some (true, ds) => 'e' :: '-' :: ds.map digitChar
  | some (false, ds) => 'e' :: ds.map digitChar

/-- The characters of the fraction part of a numeral. -/
def fractionChars (ds : List (Fin 10)) : List Char :=
  if ds.isEmpty then [] else '.' :: ds.map digitChar

/-- The characters of a numeral. -/
def NumericText.chars (t : NumericText) : List Char :=
  (if t.negative then ['-'] else []) ++
    (t.intDigits.map digitChar ++ (fractionChars t.fracDigits ++ exponentChars t.exponent))

/-- The text of a numeral. -/
def NumericText.text (t : NumericText) : String := String.mk t.chars

/-- The natural number a run of digits denotes, most significant first. -/
def natOfDigits : List (Fin 10) → Nat
  | [] => 0
  | d :: ds => d.val * 10 ^ ds.length + natOfDigits ds

/-- The exponent an exponent part denotes, 0 when there is none. -/
def exponentDenoted : Option (Bool × List (Fin 10)) → Int
  | none => 0
  | some (true, ds) => - (natOfDigits ds : Int)
  | some (false, ds) => (natOfDigits ds : Int)

/-- The magnitude a numeral denotes:
`(integer part + fraction part / 10 ^ fraction length) * 10 ^ exponent`. -/
def NumericText.magnitude (t : NumericText) : ℚ :=
  ((natOfDigits t.intDigits : ℚ) + (natOfDigits t.fracDigits : ℚ) / 10 ^ t.fracDigits.length)
    * 10 ^ exponentDenoted t.exponent

/-- A numeral has at least one integer digit, and at least one exponent digit
when it has an exponent. -/
def NumericText.WellFormed (t : NumericText) : Prop :=
  t.intDigits ≠ [] ∧ ∀ neg ds, t.exponent = some (neg, ds) → ds ≠ []

/-- Whether a value is numeric-parseable: `parseFloat` returns a number other
than `NaN`. -/
def numericParseable (v : JsVal) : Bool :=
  match parseFloat v with
  | some .nan => false
  | some _ => true
  | none => false

/-- The value is a number other than `NaN`. -/
def validNumber : JsVal → Bool
  | .num .nan => false
  | .num _ => true
  | _ => false

/-! ## Records, requests and responses -/

/-- A row of the `produtos` table as the Prisma client returns it: a
JavaScript object with the column values. -/
structure Produto where
  id : String
  categoria : JsVal
  nome : JsVal
  descricao : JsVal
  valor : JsVal
  imagem : JsVal
  deriving DecidableEq, Repr

/-- The `data` object a handler hands to `prisma.produtos.create` or
`prisma.produtos.update`. -/
structure ProdutoData where
  categoria : JsVal
  nome : JsVal
  descricao : JsVal
  valor : JsVal
  imagem : JsVal
  deriving DecidableEq, Repr

/-- The fields of `req.body` that the handlers read; a key that is absent
reads as `undefined`. -/
structure ReqBody where
  categoria : JsVal := .undefined
  nome : JsVal := .undefined
  descricao : JsVal := .undefined
  valor : JsVal := .undefined
  imagem : JsVal := .undefined
  deriving DecidableEq, Repr

/-- The object multer leaves in `req.file` after storing an upload. -/
structure UploadedFile where
  filename : String
  deriving DecidableEq, Repr

/-- An HTTP request as a handler sees it: `req.params.id`, `req.body` (the
object the body parser leaves, empty when nothing was parsed) and `req.file`
(`none` when no file part named `imagem` was sent). -/
structure Request where
  id : String := ""
  body : ReqBody := {}
  file : Option UploadedFile := none
  deriving DecidableEq, Repr

/-- The JSON payload of a response. -/
inductive Payload where
  | produto (p : Produto)
  | produtos (ps : List Produto)
  | categorias (cs : List JsVal)
  | error (msg : String)
  | message (msg : String)
  deriving DecidableEq, Repr

/-- The result of `res.status(code).json(payload)`. -/
structure Response where
  status : Nat
  payload : Payload
  deriving DecidableEq, Repr

/-! ## The persistence provider -/

/-- A write the handlers issue to the Prisma client. -/
inductive Call where
  | create (data : ProdutoData)
  | update (id : String) (data : ProdutoData)
  | delete (id : String)
  deriving DecidableEq, Repr

/-- The persistence state: the rows of `produtos` in storage order, and the
writes issued so far (accepted or not). -/
structure Db where
  rows : List Produto
  calls : List Call
  deriving DecidableEq, Repr

/-- Modelled from the spec: the Prisma schema of `produtos` is missing from
the sources, so what depends on it is a parameter.  `acceptsCreate` and
`acceptsUpdate` are the validation of a `data` object against the schema and
the stored rows (a rejected write throws); `newId` is the identifier assigned
at creation. -/
structure Provider where
  acceptsCreate : List Produto → ProdutoData → Bool
  acceptsUpdate : List Produto → String → ProdutoData → Bool
  newId : List Produto → String

/-- A column left `undefined` in `create` is stored as `null`. -/
def orNull : JsVal → JsVal
  | .undefined => .null
  | v => v

/-- A column left `undefined` in `update` keeps its stored value. -/
def orKeep (new old : JsVal) : JsVal :=
  match new with
  | .undefined => old
  | v => v

/-- The row that `create` inserts for `data` under the identifier `id`. -/
def rowOfData (id : String) (d : ProdutoData) : Produto :=
  { id := id, categoria := orNull d.categoria, nome := orNull d.nome,
    descricao := orNull d.descricao, valor := orNull d.valor, imagem := orNull d.imagem }

/-- The row that `update` leaves in place of `p` for `data`. -/
def applyData (p : Produto) (d : ProdutoData) : Produto :=
  { id := p.id, categoria := orKeep d.categoria p.categoria, nome := orKeep d.nome p.nome,
    descricao := orKeep d.descricao p.descricao, valor := orKeep d.valor p.valor,
    imagem := orKeep d.imagem p.imagem }

/-- Modelled from the spec: `prisma.produtos.findMany()`, all rows in the
provider's order. -/
def findMany (db : Db) : List Produto := db.rows

/-- Modelled from the spec: `prisma.produtos.findUnique({ where: { id } })`,
the row whose `id` is exactly the given string, or `null`. -/
def findUnique (db : Db) (id : String) : Option Produto :=
  db.rows.find? (fun p => p.id == id)

/-- First occurrences of the values of a list, in order. -/
def firstSeen : List JsVal → List JsVal
  | [] => []
  | c :: cs => c :: (firstSeen cs).filter (fun x => x != c)

/-- An object with the single selected column `categoria`. -/
structure CategoriaItem where
  categoria : JsVal
  deriving DecidableEq, Repr

/-- Modelled from the spec:
`prisma.produtos.findMany({ select: { categoria: true }, distinct: ["categoria"] })`,
one object per distinct category value, in first-seen order. -/
def findManyDistinctCategoria (db : Db) : List CategoriaItem :=
  (firstSeen (db.rows.map (fun p => p.categoria))).map CategoriaItem.mk

/-- Modelled from the spec: `prisma.produtos.create({ data })`.  The write is
recorded; a `data` object the schema rejects throws (`none`) and inserts
nothing, an accepted one is appended under a new identifier and returned. -/
def create (P : Provider) (db : Db) (d : ProdutoData) : Option Produto × Db :=
  let calls := db.calls ++ [Call.create d]
  if P.acceptsCreate db.rows d then
    let p := rowOfData (P.newId db.rows) d
    (some p, { rows := db.rows ++ [p], calls := calls })
  else (none, { rows := db.rows, calls := calls })

/-- Modelled from the spec: `prisma.produtos.update({ where: { id }, data })`.
The write is recorded; it throws (`none`) and changes nothing when no row has
the identifier or the schema rejects `data`, otherwise the merged row replaces
the stored one and is returned. -/
def update (P : Provider) (db : Db) (id : String) (d : ProdutoData) : Option Produto × Db :=
  let calls := db.calls ++ [Call.update id d]
  match db.rows.find? (fun p => p.id == id) with
  | none => (none, { rows := db.rows, calls := calls })
  | some old =>
    if P.acceptsUpdate db.rows id d then
      (some (applyData old d),
        { rows := db.rows.map (fun p => if p.id == id then applyData p d else p),
          calls := calls })
    else (none, { rows := db.rows, calls := calls })

/-- Modelled from the spec: `prisma.produtos.delete({ where: { id } })`.  The
write is recorded; it throws (`none`) when no row has the identifier,
otherwise the row is removed and returned. -/
def delete (db : Db) (id : String) : Option Produto × Db :=
  let calls := db.calls ++ [Call.delete id]
  match db.rows.find? (fun p => p.id == id) with
  | none => (none, { rows := db.rows, calls := calls })
  | some old => (some old, { rows := db.rows.filter (fun p => p.id != id), calls := calls })

/-! ## `src/index.js`: the image is a URL in the body -/

namespace Index

/-- The `data` literal of `POST /produtos` (lines 25-31); `none` when
`parseFloat` throws. -/
def postData (req : Request) : Option ProdutoData :=
  (parseFloat req.body.valor).map fun v =>
    { categoria := req.body.categoria, nome := req.body.nome,
      descricao := req.body.descricao, valor := .num v, imagem := req.body.imagem }

/-- The handler of `POST /produtos` (lines 20-39). -/
def postProdutos (P : Provider) (db : Db) (req : Request) : Response × Db :=
  match postData req with
  | none => (⟨500, .error "Erro ao criar produto"⟩, db)
  | some data =>
    match create P db data with
    | (some produto, db1) => (⟨201, .produto produto⟩, db1)
    | (none, db1) => (⟨500, .error "Erro ao criar produto"⟩, db1)

/-- The handler of `GET /produtos` (lines 42-50). -/
def getProdutos (db : Db) : Response × Db :=
  (⟨200, .produtos (findMany db)⟩, db)

/-- The handler of `GET /categorias` (lines 53-68). -/
def getCategorias (db : Db) : Response × Db :=
  let categorias := findManyDistinctCategoria db
  let categoriasUnicas := categorias.map (fun item => item.categoria)
  (⟨200, .categorias categoriasUnicas⟩, db)

/-- The `data` literal of `PUT /produtos/:id` (lines 88-94); `none` when
`parseFloat` throws. -/
def putData (req : Request) (produtoExistente : Produto) : Option ProdutoData :=
  (if truthy req.body.valor then (parseFloat req.body.valor).map JsVal.num
    else some produtoExistente.valor).map fun valor =>
    { categoria := jsOr req.body.categoria produtoExistente.categoria,
      nome := jsOr req.body.nome produtoExistente.nome,
      descricao := jsOr req.body.descricao produtoExistente.descricao,
      valor := valor,
      imagem := jsOr req.body.imagem produtoExistente.imagem }

/-- The handler of `PUT /produtos/:id` (lines 71-102). -/
def putProdutos (P : Provider) (db : Db) (req : Request) : Response × Db :=
  match findUnique db req.id with
  | none => (⟨404, .error "Produto não encontrado"⟩, db)
  | some produtoExistente =>
    match putData req produtoExistente with
    | none => (⟨500, .error "Erro ao editar produto"⟩, db)
    | some data =>
      match update P db req.id data with
      | (some produtoAtualizado, db1) => (⟨200, .produto produtoAtualizado⟩, db1)
      | (none, db1) => (⟨500, .error "Erro ao editar produto"⟩, db1)

/-- The handler of `DELETE /produtos/:id` (lines 105-128). -/
def deleteProdutos (db : Db) (req : Request) : Response × Db :=
  match findUnique db req.id with
  | none => (⟨404, .error "Produto não encontrado"⟩, db)
  | some _ =>
    match delete db req.id with
    | (some _, db1) => (⟨200, .message "Produto deletado com sucesso"⟩, db1)
    | (none, db1) => (⟨500, .error "Erro ao deletar produto"⟩, db1)

end Index

/-! ## `src/server.js`: the image is an upload stored by multer -/

namespace Server

/-- The constant `imagem` of `POST /produtos` (line 37). -/
def postImagem (req : Request) : JsVal :=
  match req.file with
  | some file => .str ("/uploads/" ++ file.filename)
  | none => .null

/-- The `data` literal of `POST /produtos` (lines 40-46); `none` when
`parseFloat` throws. -/
def postData (req : Request) : Option ProdutoData :=
  (parseFloat req.body.valor).map fun v =>
    { categoria := req.body.categoria, nome := req.body.nome,
      descricao := req.body.descricao, valor := .num v, imagem := postImagem req }

/-- The handler of `POST /produtos` (lines 34-54). -/
def postProdutos (P : Provider) (db : Db) (req : Request) : Response × Db :=
  match postData req with
  | none => (⟨500, .error "Erro ao criar produto"⟩, db)
  | some data =>
    match create P db data with
    | (some produto, db1) => (⟨201, .produto produto⟩, db1)
    | (none, db1) => (⟨500, .error "Erro ao criar produto"⟩, db1)

/-- The handler of `GET /produtos` (lines 57-65). -/
def getProdutos (db : Db) : Response × Db :=
  (⟨200, .produtos (findMany db)⟩, db)

/-- The handler of `GET /categorias` (lines 68-83). -/
def getCategorias (db : Db) : Response × Db :=
  let categorias := findManyDistinctCategoria db
  let categoriasUnicas := categorias.map (fun item => item.categoria)
  (⟨200, .categorias categoriasUnicas⟩, db)

/-- The `data` literal of `PUT /produtos/:id` (lines 103-109); `none` when
`parseFloat` throws. -/
def putData (req : Request) (produtoExistente : Produto) : Option ProdutoData :=
  (if truthy req.body.valor then (parseFloat req.body.valor).map JsVal.num
    else some produtoExistente.valor).map fun valor =>
    { categoria := jsOr req.body.categoria produtoExistente.categoria,
      nome := jsOr req.body.nome produtoExistente.nome,
      descricao := jsOr req.body.descricao produtoExistente.descricao,
      valor := valor,
      imagem :=
        match req.file with
        | some file => .str ("/uploads/" ++ file.filename)
        | none => produtoExistente.imagem }

/-- The handler of `PUT /produtos/:id` (lines 86-117). -/
def putProdutos (P : Provider) (db : Db) (req : Request) : Response × Db :=
  match findUnique db req.id with
  | none => (⟨404, .error "Produto não encontrado"⟩, db)
  | some produtoExistente =>
    match putData req produtoExistente with
    | none => (⟨500, .error "Erro ao editar produto"⟩, db)
    | some data =>
      match update P db req.id data with
      | (some produtoAtualizado, db1) => (⟨200, .produto produtoAtualizado⟩, db1)
      | (none, db1) => (⟨500, .error "Erro ao editar produto"⟩, db1)

/-- The handler of `DELETE /produtos/:id` (lines 120-143). -/
def deleteProdutos (db : Db) (req : Request) : Response × Db :=
  match findUnique db req.id with
  | none => (⟨404, .error "Produto não encontrado"⟩, db)
  | some _ =>
    match delete db req.id with
    | (some _, db1) => (⟨200, .message "Produto deletado com sucesso"⟩, db1)
    | (none, db1) => (⟨500, .error "Erro ao deletar produto"⟩, db1)

end Server

/-! ## Two concrete providers -/

/-- Modelled from the spec: the identifier "assigned by the persistence
provider at creation", "unique across all products".  The `@default` of `id`
in the Prisma schema is missing from the sources; the identifier modelled is
one longer than every stored identifier, hence one no stored product has. -/
def longerId (rows : List Produto) : String :=
  String.mk (List.replicate ((rows.map (fun p => p.id.length)).sum + 1) '0')

/-- The provider with the given validation of `create` and `update` data and
the identifier source `longerId`. -/
def providerWith (acceptsCreate : List Produto → ProdutoData → Bool)
    (acceptsUpdate : List Produto → String → ProdutoData → Bool) : Provider where
  acceptsCreate := acceptsCreate
  acceptsUpdate := acceptsUpdate
  newId := longerId

/-- A provider without schema validation: it stores whatever `data` it is
handed. -/
def laxProvider : Provider where
  acceptsCreate := fun _ _ => true
  acceptsUpdate := fun _ _ _ => true
  newId := longerId

/-- A text column: a string. -/
def isText : JsVal → Bool
  | .str _ => true
  | _ => false

/-- An optional text column: a string, `null`, or left out. -/
def isOptionalText : JsVal → Bool
  | .str _ => true
  | .null => true
  | .undefined => true
  | _ => false

/-- Modelled from the spec: the data model of section 3 read as a schema
(`category` and `name` text, `description` optional text, `value` a valid
number, `image` a reference or null). -/
def schemaAccepts (d : ProdutoData) : Bool :=
  isText d.categoria && isText d.nome && isOptionalText d.descricao &&
    validNumber d.valor && isOptionalText d.imagem

/-- A provider that enforces `schemaAccepts` on every write. -/
def strictProvider : Provider where
  acceptsCreate := fun _ d => schemaAccepts d
  acceptsUpdate := fun _ _ d => schemaAccepts d
  newId := longerId

/-! ## Sample data -/

/-- A stored product with an uploaded image. -/
def bolo : Produto :=
  { id := "1", categoria := .str "Bolos", nome := .str "Bolo de cenoura",
    descricao := .str "Com cobertura", valor := .num (.fin 45),
    imagem := .str "/uploads/1.png" }

/-- A stored product without an image. -/
def torta : Produto :=
  { id := "2", categoria := .str "Tortas", nome := .str "Torta de limao",
    descricao := .null, valor := .num (.fin 60), imagem := .null }

/-- A catalog with two products and no write issued yet. -/
def sampleDb : Db := { rows := [bolo, torta], calls := [] }

/-- An update of product "1" that supplies a new name and a new value as
text. -/
def renameAndReprice : Request :=
  { id := "1", body := { nome := .str "Bolo de fuba", valor := .str "12.50" } }

/-- An update of product "1" that supplies only a name. -/
def renameOnly : Request :=
  { id := "1", body := { nome := .str "Bolo de fuba" } }

/-- A request that targets an identifier no sample product has. -/
def missingTarget : Request :=
  { id := "7", body := { nome := .str "Bolo de fuba" } }

/-- A catalog without products. -/
def emptyDb : Db := { rows := [], calls := [] }

/-- A create whose value is the text "abc". -/
def badCreate : Request :=
  { body := { categoria := .str "Bolos", nome := .str "Bolo de milho", valor := .str "abc" } }

/-- An update of product "1" whose value is the text "abc". -/
def badReprice : Request :=
  { id := "1", body := { valor := .str "abc" } }

/-- A create that supplies an image reference in the body and no upload. -/
def referenceCreate : Request :=
  { body := { categoria := .str "Bolos", nome := .str "Bolo de milho", valor := .str "10",
              imagem := .str "http://img/milho.png" } }

/-- A create that carries an upload stored as "1700000000000.png". -/
def uploadCreate : Request :=
  { body := { categoria := .str "Bolos", nome := .str "Bolo de milho", valor := .str "12.50" },
    file := some { filename := "1700000000000.png" } }

/-- Four products created with the categories A, B, A, C in that order. -/
def abacDb : Db :=
  { rows := [⟨"1", .str "A", .str "p1", .null, .num (.fin 1), .null⟩,
             ⟨"2", .str "B", .str "p2", .null, .num (.fin 2), .null⟩,
             ⟨"3", .str "A", .str "p3", .null, .num (.fin 3), .null⟩,
             ⟨"4", .str "C", .str "p4", .null, .num (.fin 4), .null⟩],
    calls := [] }

/-- A delete of product "1". -/
def deleteFirst : Request := { id := "1" }

/-- An update of product "1" that supplies an image reference in the body and
no upload. -/
def referenceUpdate : Request :=
  { id := "1", body := { imagem := .str "http://img/t.png" } }

/-- The numeral "12.50". -/
def priceNumeral : NumericText :=
  { negative := false, intDigits := [1, 2], fracDigits := [5, 0], exponent := none }

/-- The numeral "1e400", beyond the range of a double. -/
def overflowNumeral : NumericText :=
  { negative := false, intDigits := [1], fracDigits := [], exponent := some (false, [4, 0, 0]) }

/-- The numeral "9007199254740993", which is `2 ^ 53 + 1` and not a double. -/
def unroundedNumeral : NumericText :=
  { negative := false, intDigits := [9, 0, 0, 7, 1, 9, 9, 2, 5, 4, 7, 4, 0, 9, 9, 3],
    fracDigits := [], exponent := none }

/-- A create whose value is the text "1e400". -/
def overflowCreate : Request :=
  { body := { categoria := .str "Bolos", nome := .str "Bolo de milho", valor := .str "1e400" } }

/-- A create whose value is the text "9007199254740993". -/
def unroundedCreate : Request :=
  { body := { categoria := .str "Bolos", nome := .str "Bolo de milho",
              valor := .str "9007199254740993" } }

/-! ## Lemmas on the provider -/

theorem longerId_fresh (rows : List Produto) (p : Produto) (hp : p ∈ rows) :
    p.id ≠ longerId rows := by
  intro h
  have hlen : p.id.length = (rows.map (fun p => p.id.length)).sum + 1 := by
    rw [h, longerId]
    exact List.length_replicate _ _
  have hle : p.id.length ≤ (rows.map (fun p => p.id.length)).sum :=
    List.single_le_sum (by simp) _ (List.mem_map_of_mem (fun p => p.id.length) hp)
  omega

theorem parseFloat_samples :
    parseFloat (.str "12.50") = some (.fin (mkRat 25 2)) ∧
    parseFloat (.str "  -1.5e2abc") = some (.fin (-150)) ∧
    parseFloat (.str ".5") = some (.fin (mkRat 1 2)) ∧
    parseFloat (.str "1e") = some (.fin 1) ∧
    parseFloat (.str "-Infinity") = some (.inf true) ∧
    parseFloat (.str "abc") = some .nan ∧
    parseFloat (.str "") = some .nan ∧
    parseFloat .undefined = some .nan ∧
    parseFloat (.num (.fin 0)) = some (.fin 0) ∧
    parseFloat (.object (some "1,2")) = some (.fin 1) ∧
    parseFloat (.object none) = none := by
  decide

theorem findUnique_eq_none_of_absent (db : Db) (id : String)
    (h : ∀ p ∈ db.rows, p.id ≠ id) : findUnique db id = none := by
  unfold findUnique
  rw [List.find?_eq_none]
  intro p hp
  simpa using h p hp

theorem find_map_applyData (rows : List Produto) (id : String) (d : ProdutoData) :
    (rows.map (fun p => if p.id == id then applyData p d else p)).find? (fun p => p.id == id)
      = (rows.find? (fun p => p.id == id)).map (fun p => applyData p d) := by
  induction rows with
  | nil => rfl
  | cons p ps ih =>
    simp only [List.map_cons, List.find?_cons]
    by_cases hp : (p.id == id) = true
    · have h2 : ((applyData p d).id == id) = true := hp
      simp only [hp, if_true, h2, Option.map_some']
    · have hp1 : (p.id == id) = false := by simpa using hp
      simp only [hp1, Bool.false_eq_true, if_false]
      exact ih

theorem orKeep_jsOr (new old : JsVal) : orKeep (jsOr new old) old = jsOr new old := by
  unfold jsOr
  split
  · cases new <;> simp_all [orKeep, truthy]
  · cases old <;> rfl

theorem orKeep_self (v : JsVal) : orKeep v v = v := by
  cases v <;> rfl

theorem orKeep_num (n : JsNum) (old : JsVal) : orKeep (.num n) old = .num n := rfl

theorem orKeep_str (t : String) (old : JsVal) : orKeep (.str t) old = .str t := rfl

/-! ## The handlers, case by case -/

theorem index_putProdutos_found (P : Provider) (db : Db) (req : Request) (old : Produto)
    (d : ProdutoData) (hold : findUnique db req.id = some old)
    (hd : Index.putData req old = some d) :
    Index.putProdutos P db req =
      if P.acceptsUpdate db.rows req.id d = true then
        (⟨200, .produto (applyData old d)⟩,
          ⟨db.rows.map (fun p => if p.id == req.id then applyData p d else p),
            db.calls ++ [Call.update req.id d]⟩)
      else (⟨500, .error "Erro ao editar produto"⟩, ⟨db.rows, db.calls ++ [Call.update req.id d]⟩) := by
  have hfind : db.rows.find? (fun p => p.id == req.id) = some old := hold
  unfold Index.putProdutos update
  simp only [hold, hd, hfind]
  by_cases hacc : P.acceptsUpdate db.rows req.id d = true
  · simp only [hacc, if_true]
  · have hacc1 : P.acceptsUpdate db.rows req.id d = false := by simpa using hacc
    simp only [hacc1, Bool.false_eq_true, if_false]

theorem server_putProdutos_found (P : Provider) (db : Db) (req : Request) (old : Produto)
    (d : ProdutoData) (hold : findUnique db req.id = some old)
    (hd : Server.putData req old = some d) :
    Server.putProdutos P db req =
      if P.acceptsUpdate db.rows req.id d = true then
        (⟨200, .produto (applyData old d)⟩,
          ⟨db.rows.map (fun p => if p.id == req.id then applyData p d else p),
            db.calls ++ [Call.update req.id d]⟩)
      else (⟨500, .error "Erro ao editar produto"⟩, ⟨db.rows, db.calls ++ [Call.update req.id d]⟩) := by
  have hfind : db.rows.find? (fun p => p.id == req.id) = some old := hold
  unfold Server.putProdutos update
  simp only [hold, hd, hfind]
  by_cases hacc : P.acceptsUpdate db.rows req.id d = true
  · simp only [hacc, if_true]
  · have hacc1 : P.acceptsUpdate db.rows req.id d = false := by simpa using hacc
    simp only [hacc1, Bool.false_eq_true, if_false]

theorem findUnique_after_update (db : Db) (id : String) (old : Produto) (d : ProdutoData)
    (calls : List Call) (hold : findUnique db id = some old) :
    findUnique ⟨db.rows.map (fun p => if p.id == id then applyData p d else p), calls⟩ id
      = some (applyData old d) := by
  have hfind : db.rows.find? (fun p => p.id == id) = some old := hold
  unfold findUnique
  simp only [find_map_applyData, hfind, Option.map_some']

theorem index_putData_total (req : Request) (old : Produto)
    (hparse : truthy req.body.valor = true → parseFloat req.body.valor ≠ none) :
    ∃ d, Index.putData req old = some d := by
  unfold Index.putData
  by_cases hv : truthy req.body.valor = true
  · cases hp : parseFloat req.body.valor with
    | none => exact absurd hp (hparse hv)
    | some n => simp [hv]
  · simp [hv]

theorem server_putData_total (req : Request) (old : Produto)
    (hparse : truthy req.body.valor = true → parseFloat req.body.valor ≠ none) :
    ∃ d, Server.putData req old = some d := by
  unfold Server.putData
  by_cases hv : truthy req.body.valor = true
  · cases hp : parseFloat req.body.valor with
    | none => exact absurd hp (hparse hv)
    | some n => simp [hv]
  · simp [hv]

theorem index_putData_fields (req : Request) (old : Produto) (d : ProdutoData)
    (hd : Index.putData req old = some d) :
    d.categoria = (if truthy req.body.categoria then req.body.categoria else old.categoria) ∧
    d.nome = (if truthy req.body.nome then req.body.nome else old.nome) ∧
    d.descricao = (if truthy req.body.descricao then req.body.descricao else old.descricao) ∧
    (truthy req.body.valor = true →
      ∃ n, parseFloat req.body.valor = some n ∧ d.valor = .num n) ∧
    (truthy req.body.valor = false → d.valor = old.valor) ∧
    d.imagem = (if truthy req.body.imagem then req.body.imagem else old.imagem) := by
  unfold Index.putData at hd
  by_cases hv : truthy req.body.valor = true
  · cases hp : parseFloat req.body.valor with
    | none => simp [hv, hp] at hd
    | some n =>
      simp only [hv, hp, if_true, Option.map_some', Option.some.injEq] at hd
      subst hd
      simp [jsOr, hv]
  · have hv1 : truthy req.body.valor = false := by simpa using hv
    simp only [hv1, Bool.false_eq_true, if_false, Option.map_some', Option.some.injEq] at hd
    subst hd
    simp [jsOr, hv1]

theorem server_putData_fields (req : Request) (old : Produto) (d : ProdutoData)
    (hd : Server.putData req old = some d) :
    d.categoria = (if truthy req.body.categoria then req.body.categoria else old.categoria) ∧
    d.nome = (if truthy req.body.nome then req.body.nome else old.nome) ∧
    d.descricao = (if truthy req.body.descricao then req.body.descricao else old.descricao) ∧
    (truthy req.body.valor = true →
      ∃ n, parseFloat req.body.valor = some n ∧ d.valor = .num n) ∧
    (truthy req.body.valor = false → d.valor = old.valor) ∧
    d.imagem = (match req.file with
      | some file => .str ("/uploads/" ++ file.filename)
      | none => old.imagem) := by
  unfold Server.putData at hd
  by_cases hv : truthy req.body.valor = true
  · cases hp : parseFloat req.body.valor with
    | none => simp [hv, hp] at hd
    | some n =>
      simp only [hv, hp, if_true, Option.map_some', Option.some.injEq] at hd
      subst hd
      simp [jsOr, hv]
  · have hv1 : truthy req.body.valor = false := by simpa using hv
    simp only [hv1, Bool.false_eq_true, if_false, Option.map_some', Option.some.injEq] at hd
    subst hd
    simp [jsOr, hv1]

theorem index_applyData_putData (req : Request) (old : Produto) (d : ProdutoData)
    (hd : Index.putData req old = some d) :
    applyData old d = ⟨old.id, d.categoria, d.nome, d.descricao, d.valor, d.imagem⟩ := by
  unfold Index.putData at hd
  by_cases hv : truthy req.body.valor = true
  · cases hp : parseFloat req.body.valor with
    | none => simp [hv, hp] at hd
    | some n =>
      simp only [hv, hp, if_true, Option.map_some', Option.some.injEq] at hd
      subst hd
      simp only [applyData, orKeep_jsOr, orKeep_num]
  · have hv1 : truthy req.body.valor = false := by simpa using hv
    simp only [hv1, Bool.false_eq_true, if_false, Option.map_some', Option.some.injEq] at hd
    subst hd
    simp only [applyData, orKeep_jsOr, orKeep_self]

theorem server_applyData_putData (req : Request) (old : Produto) (d : ProdutoData)
    (hd : Server.putData req old = some d) :
    applyData old d = ⟨old.id, d.categoria, d.nome, d.descricao, d.valor, d.imagem⟩ := by
  unfold Server.putData at hd
  by_cases hv : truthy req.body.valor = true
  · cases hp : parseFloat req.body.valor with
    | none => simp [hv, hp] at hd
    | some n =>
      simp only [hv, hp, if_true, Option.map_some', Option.some.injEq] at hd
      subst hd
      cases hf : req.file <;> simp only [applyData, orKeep_jsOr, orKeep_num, orKeep_str, orKeep_self]
  · have hv1 : truthy req.body.valor = false := by simpa using hv
    simp only [hv1, Bool.false_eq_true, if_false, Option.map_some', Option.some.injEq] at hd
    subst hd
    cases hf : req.file <;> simp only [applyData, orKeep_jsOr, orKeep_num, orKeep_str, orKeep_self]

/-! ## Update: merge of the supplied and the stored fields -/

/-- C1, the claim on `server.js`: an update of product "1" that supplies the
image reference "http://img/t.png" in the body, a present and truthy value,
and no upload writes the stored image "/uploads/1.png" again; `index.js`
writes the supplied reference. -/
theorem C1_put_image_counterexample :
    truthy referenceUpdate.body.imagem = true ∧
    referenceUpdate.file = none ∧
    findUnique sampleDb referenceUpdate.id = some bolo ∧
    Server.putProdutos strictProvider sampleDb referenceUpdate =
      (⟨200, .produto bolo⟩,
        ⟨[bolo, torta],
          [Call.update "1" ⟨.str "Bolos", .str "Bolo de cenoura", .str "Com cobertura",
            .num (.fin 45), .str "/uploads/1.png"⟩]⟩) ∧
    (Index.putProdutos strictProvider sampleDb referenceUpdate).1 =
      ⟨200, .produto { bolo with imagem := .str "http://img/t.png" }⟩ := by
  refine ⟨by decide, by decide, by decide, by decide, by decide⟩

/-- C1 as amended: for every stored product and every update payload whose
value, when supplied, can be converted to text, `PUT /produtos/:id` issues one
`update` whose `data` has, for `categoria`, `nome` and `descricao`, the
supplied value when it is truthy and the stored value otherwise, and for
`valor` the result of `parseFloat` when the supplied value is truthy and the
stored value otherwise.  The image is, on `index.js`, the `imagem` of the body
when it is truthy and the stored image otherwise; on `server.js`, "/uploads/"
followed by the stored filename when an upload was provided and the stored
image otherwise, whatever `imagem` the body carries.  When the provider
accepts the write, that record is the response body and the stored row. -/
theorem C1_put_writes_merged_record (P : Provider) (db : Db) (req : Request) (old : Produto)
    (hold : findUnique db req.id = some old)
    (hparse : truthy req.body.valor = true → parseFloat req.body.valor ≠ none) :
    (∃ d : ProdutoData,
      (Index.putProdutos P db req).2.calls = db.calls ++ [Call.update req.id d] ∧
      d.categoria = (if truthy req.body.categoria then req.body.categoria else old.categoria) ∧
      d.nome = (if truthy req.body.nome then req.body.nome else old.nome) ∧
      d.descricao = (if truthy req.body.descricao then req.body.descricao else old.descricao) ∧
      (truthy req.body.valor = true →
        ∃ n, parseFloat req.body.valor = some n ∧ d.valor = .num n) ∧
      (truthy req.body.valor = false → d.valor = old.valor) ∧
      d.imagem = (if truthy req.body.imagem then req.body.imagem else old.imagem) ∧
      (P.acceptsUpdate db.rows req.id d = true →
        (Index.putProdutos P db req).1 =
          ⟨200, .produto ⟨old.id, d.categoria, d.nome, d.descricao, d.valor, d.imagem⟩⟩ ∧
        findUnique (Index.putProdutos P db req).2 req.id =
          some ⟨old.id, d.categoria, d.nome, d.descricao, d.valor, d.imagem⟩)) ∧
    (∃ d : ProdutoData,
      (Server.putProdutos P db req).2.calls = db.calls ++ [Call.update req.id d] ∧
      d.categoria = (if truthy req.body.categoria then req.body.categoria else old.categoria) ∧
      d.nome = (if truthy req.body.nome then req.body.nome else old.nome) ∧
      d.descricao = (if truthy req.body.descricao then req.body.descricao else old.descricao) ∧
      (truthy req.body.valor = true →
        ∃ n, parseFloat req.body.valor = some n ∧ d.valor = .num n) ∧
      (truthy req.body.valor = false → d.valor = old.valor) ∧
      d.imagem = (match req.file with
        | some file => .str ("/uploads/" ++ file.filename)
        | none => old.imagem) ∧
      (P.acceptsUpdate db.rows req.id d = true →
        (Server.putProdutos P db req).1 =
          ⟨200, .produto ⟨old.id, d.categoria, d.nome, d.descricao, d.valor, d.imagem⟩⟩ ∧
        findUnique (Server.putProdutos P db req).2 req.id =
          some ⟨old.id, d.categoria, d.nome, d.descricao, d.valor, d.imagem⟩)) := by
  constructor
  · obtain ⟨d, hd⟩ := index_putData_total req old hparse
    obtain ⟨h1, h2, h3, h4, h5, h6⟩ := index_putData_fields req old d hd
    have hrun := index_putProdutos_found P db req old d hold hd
    refine ⟨d, ?_, h1, h2, h3, h4, h5, h6, ?_⟩
    · rw [hrun]; split <;> rfl
    · intro hacc
      rw [hrun, if_pos hacc, ← index_applyData_putData req old d hd]
      exact ⟨rfl, findUnique_after_update db req.id old d _ hold⟩
  · obtain ⟨d, hd⟩ := server_putData_total req old hparse
    obtain ⟨h1, h2, h3, h4, h5, h6⟩ := server_putData_fields req old d hd
    have hrun := server_putProdutos_found P db req old d hold hd
    refine ⟨d, ?_, h1, h2, h3, h4, h5, h6, ?_⟩
    · rw [hrun]; split <;> rfl
    · intro hacc
      rw [hrun, if_pos hacc, ← server_applyData_putData req old d hd]
      exact ⟨rfl, findUnique_after_update db req.id old d _ hold⟩

/-- C1 as amended, at the sample catalog: product "1" is renamed and repriced from the
text "12.50"; the write carries the new name, the number 12.5 and the four
stored values. -/
theorem C1_put_writes_merged_record_witness :
    findUnique sampleDb renameAndReprice.id = some bolo ∧
    (truthy renameAndReprice.body.valor = true →
      parseFloat renameAndReprice.body.valor ≠ none) ∧
    (∃ d : ProdutoData,
      (Index.putProdutos strictProvider sampleDb renameAndReprice).2.calls
        = sampleDb.calls ++ [Call.update renameAndReprice.id d] ∧
      d.categoria = bolo.categoria ∧ d.nome = .str "Bolo de fuba" ∧
      d.descricao = bolo.descricao ∧ d.valor = .num (.fin (mkRat 25 2)) ∧
      d.imagem = bolo.imagem) := by
  refine ⟨by decide, by decide, ?_⟩
  obtain ⟨d, h0, h1, h2, h3, h4, _, h6, _⟩ :=
    (C1_put_writes_merged_record strictProvider sampleDb renameAndReprice bolo
      (by decide) (by decide)).1
  refine ⟨d, h0, h1, h2, h3, ?_, h6⟩
  obtain ⟨n, hn, hdv⟩ := h4 (by decide)
  have hparsed : parseFloat renameAndReprice.body.valor = some (.fin (mkRat 25 2)) := by decide
  rw [hparsed] at hn
  rw [hdv, ← Option.some.inj hn]

/-- C2: for every stored product and every non-empty name `X`, an update that
supplies only the name issues, on both servers, the write whose `data` carries
`X` as name and the stored category, description, value and image; when the
provider accepts it, the response (status 200) and the stored row are the old
record with the name replaced, so the image is not cleared. -/
theorem C2_put_name_only_keeps_other_fields (P : Provider) (db : Db) (id X : String)
    (old : Produto) (hold : findUnique db id = some old) (hX : X ≠ "") :
    (Index.putProdutos P db { id := id, body := { nome := .str X } }).2.calls =
      db.calls ++
        [Call.update id ⟨old.categoria, .str X, old.descricao, old.valor, old.imagem⟩] ∧
    (Server.putProdutos P db { id := id, body := { nome := .str X } }).2.calls =
      db.calls ++
        [Call.update id ⟨old.categoria, .str X, old.descricao, old.valor, old.imagem⟩] ∧
    (P.acceptsUpdate db.rows id
        ⟨old.categoria, .str X, old.descricao, old.valor, old.imagem⟩ = true →
      (Index.putProdutos P db { id := id, body := { nome := .str X } }).1 =
        ⟨200, .produto { old with nome := .str X }⟩ ∧
      findUnique (Index.putProdutos P db { id := id, body := { nome := .str X } }).2 id =
        some { old with nome := .str X } ∧
      (Server.putProdutos P db { id := id, body := { nome := .str X } }).1 =
        ⟨200, .produto { old with nome := .str X }⟩ ∧
      findUnique (Server.putProdutos P db { id := id, body := { nome := .str X } }).2 id =
        some { old with nome := .str X }) := by
  have hname : truthy (.str X) = true := by simp [truthy, hX]
  have hdI : Index.putData { id := id, body := { nome := .str X } } old =
      some ⟨old.categoria, .str X, old.descricao, old.valor, old.imagem⟩ := by
    simp [Index.putData, jsOr, truthy, hX]
  have hdS : Server.putData { id := id, body := { nome := .str X } } old =
      some ⟨old.categoria, .str X, old.descricao, old.valor, old.imagem⟩ := by
    simp [Server.putData, jsOr, truthy, hX]
  have hrunI := index_putProdutos_found P db { id := id, body := { nome := .str X } } old _ hold hdI
  have hrunS := server_putProdutos_found P db { id := id, body := { nome := .str X } } old _ hold hdS
  have hrow : applyData old ⟨old.categoria, .str X, old.descricao, old.valor, old.imagem⟩ =
      { old with nome := .str X } := by
    simp only [applyData, orKeep_self, orKeep_str]
  refine ⟨?_, ?_, ?_⟩
  · rw [hrunI]; split <;> rfl
  · rw [hrunS]; split <;> rfl
  · intro hacc
    rw [hrunI, hrunS]
    simp only [hacc, if_true]
    rw [hrow]
    have hfind := findUnique_after_update db id old
      ⟨old.categoria, .str X, old.descricao, old.valor, old.imagem⟩
      (db.calls ++ [Call.update id ⟨old.categoria, .str X, old.descricao, old.valor, old.imagem⟩])
      hold
    rw [hrow] at hfind
    exact ⟨rfl, hfind, rfl, hfind⟩

/-- C2 at the sample catalog: renaming product "1" keeps its category,
description, value and uploaded image. -/
theorem C2_put_name_only_keeps_other_fields_witness :
    findUnique sampleDb "1" = some bolo ∧ "Bolo de fuba" ≠ "" ∧
    (Server.putProdutos strictProvider sampleDb renameOnly).1 =
      ⟨200, .produto ⟨"1", .str "Bolos", .str "Bolo de fuba", .str "Com cobertura",
        .num (.fin 45), .str "/uploads/1.png"⟩⟩ :=
  ⟨by decide, by decide,
    ((C2_put_name_only_keeps_other_fields strictProvider sampleDb "1" "Bolo de fuba" bolo
      (by decide) (by decide)).2.2 (by decide)).2.2.1⟩

/-! ## Update and delete of an identifier that is not stored -/

/-- C3: for every catalog state and every identifier that no stored product
has, `PUT /produtos/:id` responds 404 with "Produto não encontrado" and leaves
the persistence state as it was: no write is issued, the rows and their number
are unchanged. -/
theorem C3_put_absent_id_not_found (P : Provider) (db : Db) (req : Request)
    (habsent : ∀ p ∈ db.rows, p.id ≠ req.id) :
    Index.putProdutos P db req = (⟨404, .error "Produto não encontrado"⟩, db) ∧
    Server.putProdutos P db req = (⟨404, .error "Produto não encontrado"⟩, db) ∧
    (Index.putProdutos P db req).2.calls = db.calls ∧
    (Server.putProdutos P db req).2.calls = db.calls ∧
    (Index.putProdutos P db req).2.rows.length = db.rows.length ∧
    (Server.putProdutos P db req).2.rows.length = db.rows.length := by
  have hnone := findUnique_eq_none_of_absent db req.id habsent
  have hI : Index.putProdutos P db req = (⟨404, .error "Produto não encontrado"⟩, db) := by
    unfold Index.putProdutos; rw [hnone]
  have hS : Server.putProdutos P db req = (⟨404, .error "Produto não encontrado"⟩, db) := by
    unfold Server.putProdutos; rw [hnone]
  refine ⟨hI, hS, ?_, ?_, ?_, ?_⟩ <;> simp only [hI, hS]

/-- C3 at the sample catalog: identifier "7" is not stored. -/
theorem C3_put_absent_id_not_found_witness :
    (∀ p ∈ sampleDb.rows, p.id ≠ missingTarget.id) ∧
    Index.putProdutos laxProvider sampleDb missingTarget =
      (⟨404, .error "Produto não encontrado"⟩, sampleDb) :=
  ⟨by decide, (C3_put_absent_id_not_found laxProvider sampleDb missingTarget (by decide)).1⟩

/-- C4: for every catalog state and every identifier that no stored product
has, `DELETE /produtos/:id` responds 404 and leaves the persistence state as
it was, so `GET /produtos` answers the same list before and after. -/
theorem C4_delete_absent_id_not_found (db : Db) (req : Request)
    (habsent : ∀ p ∈ db.rows, p.id ≠ req.id) :
    Index.deleteProdutos db req = (⟨404, .error "Produto não encontrado"⟩, db) ∧
    Server.deleteProdutos db req = (⟨404, .error "Produto não encontrado"⟩, db) ∧
    (Index.getProdutos (Index.deleteProdutos db req).2).1 = (Index.getProdutos db).1 ∧
    (Server.getProdutos (Server.deleteProdutos db req).2).1 = (Server.getProdutos db).1 := by
  have hnone := findUnique_eq_none_of_absent db req.id habsent
  have hI : Index.deleteProdutos db req = (⟨404, .error "Produto não encontrado"⟩, db) := by
    unfold Index.deleteProdutos; rw [hnone]
  have hS : Server.deleteProdutos db req = (⟨404, .error "Produto não encontrado"⟩, db) := by
    unfold Server.deleteProdutos; rw [hnone]
  refine ⟨hI, hS, ?_, ?_⟩ <;> simp only [hI, hS]

/-- C4 at the sample catalog: identifier "7" is not stored. -/
theorem C4_delete_absent_id_not_found_witness :
    (∀ p ∈ sampleDb.rows, p.id ≠ missingTarget.id) ∧
    Server.deleteProdutos sampleDb missingTarget =
      (⟨404, .error "Produto não encontrado"⟩, sampleDb) :=
  ⟨by decide, (C4_delete_absent_id_not_found sampleDb missingTarget (by decide)).2.1⟩

/-! ## Create -/

theorem index_postProdutos_run (P : Provider) (db : Db) (req : Request) (d : ProdutoData)
    (hd : Index.postData req = some d) :
    Index.postProdutos P db req =
      if P.acceptsCreate db.rows d = true then
        (⟨201, .produto (rowOfData (P.newId db.rows) d)⟩,
          ⟨db.rows ++ [rowOfData (P.newId db.rows) d], db.calls ++ [Call.create d]⟩)
      else (⟨500, .error "Erro ao criar produto"⟩, ⟨db.rows, db.calls ++ [Call.create d]⟩) := by
  unfold Index.postProdutos create
  simp only [hd]
  by_cases hacc : P.acceptsCreate db.rows d = true
  · simp only [hacc, if_true]
  · have hacc1 : P.acceptsCreate db.rows d = false := by simpa using hacc
    simp only [hacc1, Bool.false_eq_true, if_false]

theorem server_postProdutos_run (P : Provider) (db : Db) (req : Request) (d : ProdutoData)
    (hd : Server.postData req = some d) :
    Server.postProdutos P db req =
      if P.acceptsCreate db.rows d = true then
        (⟨201, .produto (rowOfData (P.newId db.rows) d)⟩,
          ⟨db.rows ++ [rowOfData (P.newId db.rows) d], db.calls ++ [Call.create d]⟩)
      else (⟨500, .error "Erro ao criar produto"⟩, ⟨db.rows, db.calls ++ [Call.create d]⟩) := by
  unfold Server.postProdutos create
  simp only [hd]
  by_cases hacc : P.acceptsCreate db.rows d = true
  · simp only [hacc, if_true]
  · have hacc1 : P.acceptsCreate db.rows d = false := by simpa using hacc
    simp only [hacc1, Bool.false_eq_true, if_false]

theorem index_postProdutos_throw (P : Provider) (db : Db) (req : Request)
    (hd : parseFloat req.body.valor = none) :
    Index.postProdutos P db req = (⟨500, .error "Erro ao criar produto"⟩, db) := by
  unfold Index.postProdutos Index.postData
  simp only [hd, Option.map_none']

theorem server_postProdutos_throw (P : Provider) (db : Db) (req : Request)
    (hd : parseFloat req.body.valor = none) :
    Server.postProdutos P db req = (⟨500, .error "Erro ao criar produto"⟩, db) := by
  unfold Server.postProdutos Server.postData
  simp only [hd, Option.map_none']

theorem not_numericParseable (v : JsVal) (h : numericParseable v = false) :
    parseFloat v = none ∨ parseFloat v = some .nan := by
  unfold numericParseable at h
  cases hp : parseFloat v with
  | none => exact Or.inl rfl
  | some n =>
    cases n with
    | nan => exact Or.inr rfl
    | inf b => simp [hp] at h
    | fin q => simp [hp] at h

/-- C5, the claim at "abc": the text is not numeric-parseable, yet on both
servers `POST /produtos` hands `NaN` to the provider as the value.  With a
provider that stores what it is handed the response is 201 and the record is
inserted with `NaN`; with a provider that enforces the schema the response is
the generic 500 "Erro ao criar produto", not a validation error. -/
theorem C5_post_non_numeric_value_counterexample :
    numericParseable badCreate.body.valor = false ∧
    Index.postProdutos laxProvider emptyDb badCreate =
      (⟨201, .produto ⟨"0", .str "Bolos", .str "Bolo de milho", .null, .num .nan, .null⟩⟩,
        ⟨[⟨"0", .str "Bolos", .str "Bolo de milho", .null, .num .nan, .null⟩],
          [Call.create ⟨.str "Bolos", .str "Bolo de milho", .undefined, .num .nan, .undefined⟩]⟩) ∧
    Server.postProdutos strictProvider emptyDb badCreate =
      (⟨500, .error "Erro ao criar produto"⟩,
        ⟨[], [Call.create ⟨.str "Bolos", .str "Bolo de milho", .undefined, .num .nan, .null⟩]⟩) := by
  refine ⟨by decide, by decide, by decide⟩

/-- C5 as amended: for every create input whose value is not numeric-parseable
the handler validates nothing itself.  When `parseFloat` throws it responds
500 without calling the provider; otherwise it issues one `create` whose
value is `NaN`, and it responds 500 "Erro ao criar produto" with the rows
unchanged when the provider rejects that write, 201 with the row appended
when the provider accepts it. -/
theorem C5_post_non_numeric_value_unchecked (P : Provider) (db : Db) (req : Request)
    (hbad : numericParseable req.body.valor = false) :
    ((parseFloat req.body.valor = none ∧
        Index.postProdutos P db req = (⟨500, .error "Erro ao criar produto"⟩, db)) ∨
      (∃ d : ProdutoData, d.valor = .num .nan ∧
        (Index.postProdutos P db req).2.calls = db.calls ++ [Call.create d] ∧
        (P.acceptsCreate db.rows d = false →
          (Index.postProdutos P db req).1 = ⟨500, .error "Erro ao criar produto"⟩ ∧
          (Index.postProdutos P db req).2.rows = db.rows) ∧
        (P.acceptsCreate db.rows d = true →
          (Index.postProdutos P db req).1 = ⟨201, .produto (rowOfData (P.newId db.rows) d)⟩ ∧
          (Index.postProdutos P db req).2.rows = db.rows ++ [rowOfData (P.newId db.rows) d]))) ∧
    ((parseFloat req.body.valor = none ∧
        Server.postProdutos P db req = (⟨500, .error "Erro ao criar produto"⟩, db)) ∨
      (∃ d : ProdutoData, d.valor = .num .nan ∧
        (Server.postProdutos P db req).2.calls = db.calls ++ [Call.create d] ∧
        (P.acceptsCreate db.rows d = false →
          (Server.postProdutos P db req).1 = ⟨500, .error "Erro ao criar produto"⟩ ∧
          (Server.postProdutos P db req).2.rows = db.rows) ∧
        (P.acceptsCreate db.rows d = true →
          (Server.postProdutos P db req).1 = ⟨201, .produto (rowOfData (P.newId db.rows) d)⟩ ∧
          (Server.postProdutos P db req).2.rows = db.rows ++ [rowOfData (P.newId db.rows) d]))) := by
  rcases not_numericParseable _ hbad with hnone | hnan
  · exact ⟨Or.inl ⟨hnone, index_postProdutos_throw P db req hnone⟩,
      Or.inl ⟨hnone, server_postProdutos_throw P db req hnone⟩⟩
  · constructor
    · have hd : Index.postData req = some ⟨req.body.categoria, req.body.nome,
          req.body.descricao, .num .nan, req.body.imagem⟩ := by
        simp only [Index.postData, hnan, Option.map_some']
      have hrun := index_postProdutos_run P db req _ hd
      refine Or.inr ⟨⟨req.body.categoria, req.body.nome, req.body.descricao, .num .nan,
        req.body.imagem⟩, rfl, ?_, ?_, ?_⟩
      · rw [hrun]; split <;> rfl
      · intro hacc; rw [hrun]; simp only [hacc, Bool.false_eq_true, if_false, and_self]
      · intro hacc; rw [hrun]; simp only [hacc, if_true, and_self]
    · have hd : Server.postData req = some ⟨req.body.categoria, req.body.nome,
          req.body.descricao, .num .nan, Server.postImagem req⟩ := by
        simp only [Server.postData, hnan, Option.map_some']
      have hrun := server_postProdutos_run P db req _ hd
      refine Or.inr ⟨⟨req.body.categoria, req.body.nome, req.body.descricao, .num .nan,
        Server.postImagem req⟩, rfl, ?_, ?_, ?_⟩
      · rw [hrun]; split <;> rfl
      · intro hacc; rw [hrun]; simp only [hacc, Bool.false_eq_true, if_false, and_self]
      · intro hacc; rw [hrun]; simp only [hacc, if_true, and_self]

/-- C5 as amended, at "abc" on the empty catalog with the schema-enforcing
provider: the write is rejected, so the answer is the generic 500. -/
theorem C5_post_non_numeric_value_unchecked_witness :
    numericParseable badCreate.body.valor = false ∧
    ∃ d : ProdutoData, d.valor = .num .nan ∧
      (Index.postProdutos strictProvider emptyDb badCreate).2.calls =
        emptyDb.calls ++ [Call.create d] := by
  refine ⟨by decide, ?_⟩
  rcases (C5_post_non_numeric_value_unchecked strictProvider emptyDb badCreate (by decide)).1
    with ⟨hnone, _⟩ | ⟨d, hd, hcalls, _⟩
  · exact absurd hnone (by decide)
  · exact ⟨d, hd, hcalls⟩

/-! ## Stored values stay valid numbers when the payload is numeric -/

theorem orKeep_of_validNumber (v old : JsVal) (h : validNumber v = true) : orKeep v old = v := by
  cases v <;> first | rfl | simp [validNumber] at h

theorem orNull_of_validNumber (v : JsVal) (h : validNumber v = true) : orNull v = v := by
  cases v <;> first | rfl | simp [validNumber] at h

theorem validNumber_num (n : JsNum) (h : n ≠ .nan) : validNumber (.num n) = true := by
  cases n <;> first | rfl | exact absurd rfl h

theorem create_rows_valid (P : Provider) (db : Db) (d : ProdutoData)
    (hd : validNumber d.valor = true)
    (hinv : ∀ p ∈ db.rows, validNumber p.valor = true) :
    ∀ p ∈ (create P db d).2.rows, validNumber p.valor = true := by
  unfold create
  by_cases hacc : P.acceptsCreate db.rows d = true
  · simp only [hacc, if_true]
    intro p hp
    rcases List.mem_append.1 hp with h | h
    · exact hinv p h
    · rw [List.mem_singleton.1 h]
      show validNumber (orNull d.valor) = true
      rw [orNull_of_validNumber _ hd]
      exact hd
  · have hacc1 : P.acceptsCreate db.rows d = false := by simpa using hacc
    simp only [hacc1, Bool.false_eq_true, if_false]
    exact hinv

theorem update_rows_valid (P : Provider) (db : Db) (id : String) (d : ProdutoData)
    (hd : validNumber d.valor = true)
    (hinv : ∀ p ∈ db.rows, validNumber p.valor = true) :
    ∀ p ∈ (update P db id d).2.rows, validNumber p.valor = true := by
  unfold update
  cases db.rows.find? (fun p => p.id == id) with
  | none => exact hinv
  | some old =>
    by_cases hacc : P.acceptsUpdate db.rows id d = true
    · simp only [hacc, if_true]
      intro p hp
      obtain ⟨q, hq, rfl⟩ := List.mem_map.1 hp
      by_cases hid : (q.id == id) = true
      · simp only [hid, if_true]
        show validNumber (orKeep d.valor q.valor) = true
        rw [orKeep_of_validNumber _ _ hd]
        exact hd
      · have hid1 : (q.id == id) = false := by simpa using hid
        simp only [hid1, Bool.false_eq_true, if_false]
        exact hinv q hq
    · have hacc1 : P.acceptsUpdate db.rows id d = false := by simpa using hacc
      simp only [hacc1, Bool.false_eq_true, if_false]
      exact hinv

theorem index_postProdutos_state (P : Provider) (db : Db) (req : Request) :
    (Index.postProdutos P db req).2 = db ∨
      ∃ d, Index.postData req = some d ∧
        (Index.postProdutos P db req).2 = (create P db d).2 := by
  unfold Index.postProdutos
  cases hd : Index.postData req with
  | none => exact Or.inl rfl
  | some d =>
    refine Or.inr ⟨d, rfl, ?_⟩
    show (match create P db d with
      | (some produto, db1) => ((⟨201, .produto produto⟩ : Response), db1)
      | (none, db1) => (⟨500, .error "Erro ao criar produto"⟩, db1)).2 = (create P db d).2
    generalize create P db d = res
    rcases res with ⟨_ | r, db1⟩ <;> rfl

theorem server_postProdutos_state (P : Provider) (db : Db) (req : Request) :
    (Server.postProdutos P db req).2 = db ∨
      ∃ d, Server.postData req = some d ∧
        (Server.postProdutos P db req).2 = (create P db d).2 := by
  unfold Server.postProdutos
  cases hd : Server.postData req with
  | none => exact Or.inl rfl
  | some d =>
    refine Or.inr ⟨d, rfl, ?_⟩
    show (match create P db d with
      | (some produto, db1) => ((⟨201, .produto produto⟩ : Response), db1)
      | (none, db1) => (⟨500, .error "Erro ao criar produto"⟩, db1)).2 = (create P db d).2
    generalize create P db d = res
    rcases res with ⟨_ | r, db1⟩ <;> rfl

theorem index_putProdutos_state (P : Provider) (db : Db) (req : Request) :
    (Index.putProdutos P db req).2 = db ∨
      ∃ old d, findUnique db req.id = some old ∧ Index.putData req old = some d ∧
        (Index.putProdutos P db req).2 = (update P db req.id d).2 := by
  unfold Index.putProdutos
  cases hf : findUnique db req.id with
  | none => exact Or.inl rfl
  | some old =>
    dsimp only
    cases hd : Index.putData req old with
    | none => exact Or.inl rfl
    | some d =>
      refine Or.inr ⟨old, d, rfl, hd, ?_⟩
      show (match update P db req.id d with
        | (some produto, db1) => ((⟨200, .produto produto⟩ : Response), db1)
        | (none, db1) => (⟨500, .error "Erro ao editar produto"⟩, db1)).2
          = (update P db req.id d).2
      generalize update P db req.id d = res
      rcases res with ⟨_ | r, db1⟩ <;> rfl

theorem server_putProdutos_state (P : Provider) (db : Db) (req : Request) :
    (Server.putProdutos P db req).2 = db ∨
      ∃ old d, findUnique db req.id = some old ∧ Server.putData req old = some d ∧
        (Server.putProdutos P db req).2 = (update P db req.id d).2 := by
  unfold Server.putProdutos
  cases hf : findUnique db req.id with
  | none => exact Or.inl rfl
  | some old =>
    dsimp only
    cases hd : Server.putData req old with
    | none => exact Or.inl rfl
    | some d =>
      refine Or.inr ⟨old, d, rfl, hd, ?_⟩
      show (match update P db req.id d with
        | (some produto, db1) => ((⟨200, .produto produto⟩ : Response), db1)
        | (none, db1) => (⟨500, .error "Erro ao editar produto"⟩, db1)).2
          = (update P db req.id d).2
      generalize update P db req.id d = res
      rcases res with ⟨_ | r, db1⟩ <;> rfl

theorem index_postData_valor (req : Request) (d : ProdutoData)
    (hd : Index.postData req = some d) (hnum : parseFloat req.body.valor ≠ some .nan) :
    validNumber d.valor = true := by
  unfold Index.postData at hd
  cases hp : parseFloat req.body.valor with
  | none => simp [hp] at hd
  | some n =>
    simp only [hp, Option.map_some', Option.some.injEq] at hd
    subst hd
    exact validNumber_num n (fun h => hnum (by rw [hp, h]))

theorem server_postData_valor (req : Request) (d : ProdutoData)
    (hd : Server.postData req = some d) (hnum : parseFloat req.body.valor ≠ some .nan) :
    validNumber d.valor = true := by
  unfold Server.postData at hd
  cases hp : parseFloat req.body.valor with
  | none => simp [hp] at hd
  | some n =>
    simp only [hp, Option.map_some', Option.some.injEq] at hd
    subst hd
    exact validNumber_num n (fun h => hnum (by rw [hp, h]))

theorem findUnique_mem (db : Db) (id : String) (old : Produto)
    (hold : findUnique db id = some old) : old ∈ db.rows :=
  List.mem_of_find?_eq_some hold

/-- C6, the claim at "abc": every product of the sample catalog has a valid
numeric value; `PUT /produtos/1` with the value "abc", a non-empty and
non-numeric text, issues an `update` whose value is `NaN` whatever the
provider.  A provider that stores what it is handed then holds `NaN` for
product "1"; a provider that enforces the schema rejects the write and the
answer is 500. -/
theorem C6_valid_values_counterexample :
    (∀ p ∈ sampleDb.rows, validNumber p.valor = true) ∧
    truthy badReprice.body.valor = true ∧
    numericParseable badReprice.body.valor = false ∧
    (Index.putProdutos laxProvider sampleDb badReprice).1 =
      ⟨200, .produto { bolo with valor := .num .nan }⟩ ∧
    (Index.putProdutos laxProvider sampleDb badReprice).2.rows =
      [{ bolo with valor := .num .nan }, torta] ∧
    ¬ (∀ p ∈ (Index.putProdutos laxProvider sampleDb badReprice).2.rows,
        validNumber p.valor = true) ∧
    Server.putProdutos strictProvider sampleDb badReprice =
      (⟨500, .error "Erro ao editar produto"⟩,
        ⟨[bolo, torta],
          [Call.update "1" ⟨.str "Bolos", .str "Bolo de cenoura", .str "Com cobertura",
            .num .nan, .str "/uploads/1.png"⟩]⟩) := by
  refine ⟨by decide, by decide, by decide, by decide, by decide, by decide, by decide⟩

/-- C6 as amended: for every provider, a catalog in which every stored value
is a valid number stays so after any `POST /produtos` whose value `parseFloat`
does not read as `NaN`, and after any `PUT /produtos/:id` whose value is falsy
(absent or empty) or is not read as `NaN` by `parseFloat`, on both servers. -/
theorem C6_valid_values_kept_for_numeric_payloads (P : Provider) (db : Db) (req : Request)
    (hinv : ∀ p ∈ db.rows, validNumber p.valor = true) :
    (parseFloat req.body.valor ≠ some .nan →
      (∀ p ∈ (Index.postProdutos P db req).2.rows, validNumber p.valor = true) ∧
      (∀ p ∈ (Server.postProdutos P db req).2.rows, validNumber p.valor = true)) ∧
    ((truthy req.body.valor = true → parseFloat req.body.valor ≠ some .nan) →
      (∀ p ∈ (Index.putProdutos P db req).2.rows, validNumber p.valor = true) ∧
      (∀ p ∈ (Server.putProdutos P db req).2.rows, validNumber p.valor = true)) := by
  constructor
  · intro hnum
    constructor
    · rcases index_postProdutos_state P db req with h | ⟨d, hd, h⟩
      · rw [h]; exact hinv
      · rw [h]; exact create_rows_valid P db d (index_postData_valor req d hd hnum) hinv
    · rcases server_postProdutos_state P db req with h | ⟨d, hd, h⟩
      · rw [h]; exact hinv
      · rw [h]; exact create_rows_valid P db d (server_postData_valor req d hd hnum) hinv
  · intro hnum
    constructor
    · rcases index_putProdutos_state P db req with h | ⟨old, d, hold, hd, h⟩
      · rw [h]; exact hinv
      · rw [h]
        refine update_rows_valid P db req.id d ?_ hinv
        obtain ⟨_, _, _, h4, h5, _⟩ := index_putData_fields req old d hd
        by_cases hv : truthy req.body.valor = true
        · obtain ⟨n, hn, hdv⟩ := h4 hv
          rw [hdv]
          exact validNumber_num n (fun hnan => hnum hv (by rw [hn, hnan]))
        · rw [h5 (by simpa using hv)]
          exact hinv old (findUnique_mem db req.id old hold)
    · rcases server_putProdutos_state P db req with h | ⟨old, d, hold, hd, h⟩
      · rw [h]; exact hinv
      · rw [h]
        refine update_rows_valid P db req.id d ?_ hinv
        obtain ⟨_, _, _, h4, h5, _⟩ := server_putData_fields req old d hd
        by_cases hv : truthy req.body.valor = true
        · obtain ⟨n, hn, hdv⟩ := h4 hv
          rw [hdv]
          exact validNumber_num n (fun hnan => hnum hv (by rw [hn, hnan]))
        · rw [h5 (by simpa using hv)]
          exact hinv old (findUnique_mem db req.id old hold)

/-- C6 as amended, at the sample catalog with the provider that stores what it
is handed: after repricing product "1" from the text "12.50" every stored
value is still a valid number. -/
theorem C6_valid_values_kept_for_numeric_payloads_witness :
    (∀ p ∈ sampleDb.rows, validNumber p.valor = true) ∧
    (truthy renameAndReprice.body.valor = true →
      parseFloat renameAndReprice.body.valor ≠ some .nan) ∧
    (∀ p ∈ (Index.putProdutos laxProvider sampleDb renameAndReprice).2.rows,
      validNumber p.valor = true) :=
  ⟨by decide, by decide,
    ((C6_valid_values_kept_for_numeric_payloads laxProvider sampleDb renameAndReprice
      (by decide)).2 (by decide)).1⟩

/-! ## Create: the image of the new record -/

theorem index_postData_total (req : Request) (hparse : parseFloat req.body.valor ≠ none) :
    ∃ n, parseFloat req.body.valor = some n ∧
      Index.postData req = some ⟨req.body.categoria, req.body.nome, req.body.descricao,
        .num n, req.body.imagem⟩ := by
  cases hp : parseFloat req.body.valor with
  | none => exact absurd hp hparse
  | some n => exact ⟨n, rfl, by simp only [Index.postData, hp, Option.map_some']⟩

theorem server_postData_total (req : Request) (hparse : parseFloat req.body.valor ≠ none) :
    ∃ n, parseFloat req.body.valor = some n ∧
      Server.postData req = some ⟨req.body.categoria, req.body.nome, req.body.descricao,
        .num n, Server.postImagem req⟩ := by
  cases hp : parseFloat req.body.valor with
  | none => exact absurd hp hparse
  | some n => exact ⟨n, rfl, by simp only [Server.postData, hp, Option.map_some']⟩

/-- C7, the claim on `server.js`: a create that supplies the image reference
"http://img/milho.png" and no upload is accepted and stores `null` as image,
although a reference was supplied. -/
theorem C7_post_image_counterexample :
    referenceCreate.file = none ∧
    referenceCreate.body.imagem = .str "http://img/milho.png" ∧
    Server.postProdutos strictProvider emptyDb referenceCreate =
      (⟨201, .produto ⟨"0", .str "Bolos", .str "Bolo de milho", .null, .num (.fin 10), .null⟩⟩,
        ⟨[⟨"0", .str "Bolos", .str "Bolo de milho", .null, .num (.fin 10), .null⟩],
          [Call.create ⟨.str "Bolos", .str "Bolo de milho", .undefined, .num (.fin 10), .null⟩]⟩) := by
  refine ⟨by decide, by decide, by decide⟩

/-- C7 as amended: for every create input whose value can be converted to
text, `server.js` hands to the provider as image "/uploads/" followed by the
stored filename when an upload was provided and `null` otherwise, without
reading an image reference of the body; `index.js` hands over the `imagem`
value of the body as it is and does not read an upload.  When the provider
accepts the write the created record has that image, `null` when `index.js`
got no `imagem`. -/
theorem C7_post_image_by_server (P : Provider) (db : Db) (req : Request)
    (hparse : parseFloat req.body.valor ≠ none) :
    (∃ d : ProdutoData,
      (Server.postProdutos P db req).2.calls = db.calls ++ [Call.create d] ∧
      d.imagem = (match req.file with
        | some file => .str ("/uploads/" ++ file.filename)
        | none => .null) ∧
      (P.acceptsCreate db.rows d = true →
        ∃ r, (Server.postProdutos P db req).1 = ⟨201, .produto r⟩ ∧ r.imagem = d.imagem)) ∧
    (∃ d : ProdutoData,
      (Index.postProdutos P db req).2.calls = db.calls ++ [Call.create d] ∧
      d.imagem = req.body.imagem ∧
      (P.acceptsCreate db.rows d = true →
        ∃ r, (Index.postProdutos P db req).1 = ⟨201, .produto r⟩ ∧
          r.imagem = (match req.body.imagem with
            | .undefined => .null
            | v => v))) := by
  constructor
  · obtain ⟨n, _, hd⟩ := server_postData_total req hparse
    have hrun := server_postProdutos_run P db req _ hd
    have himg : Server.postImagem req = (match req.file with
        | some file => .str ("/uploads/" ++ file.filename)
        | none => .null) := by
      unfold Server.postImagem; cases req.file <;> rfl
    refine ⟨⟨req.body.categoria, req.body.nome, req.body.descricao, .num n,
      Server.postImagem req⟩, ?_, himg, ?_⟩
    · rw [hrun]; split <;> rfl
    · intro hacc
      rw [hrun, if_pos hacc]
      refine ⟨_, rfl, ?_⟩
      show orNull (Server.postImagem req) = Server.postImagem req
      unfold Server.postImagem
      cases req.file <;> rfl
  · obtain ⟨n, _, hd⟩ := index_postData_total req hparse
    have hrun := index_postProdutos_run P db req _ hd
    refine ⟨⟨req.body.categoria, req.body.nome, req.body.descricao, .num n,
      req.body.imagem⟩, ?_, rfl, ?_⟩
    · rw [hrun]; split <;> rfl
    · intro hacc
      rw [hrun, if_pos hacc]
      refine ⟨_, rfl, ?_⟩
      show orNull req.body.imagem = _
      cases req.body.imagem <;> rfl

/-- C7 as amended, at a create with an upload stored as "1700000000000.png":
`server.js` hands "/uploads/1700000000000.png" to the provider. -/
theorem C7_post_image_by_server_witness :
    parseFloat uploadCreate.body.valor ≠ none ∧
    ∃ d : ProdutoData,
      (Server.postProdutos strictProvider sampleDb uploadCreate).2.calls =
        sampleDb.calls ++ [Call.create d] ∧
      d.imagem = .str "/uploads/1700000000000.png" := by
  refine ⟨by decide, ?_⟩
  obtain ⟨d, hcalls, himg, _⟩ :=
    (C7_post_image_by_server strictProvider sampleDb uploadCreate (by decide)).1
  exact ⟨d, hcalls, himg.trans (by decide)⟩

/-! ## Distinct categories -/

theorem mem_firstSeen (l : List JsVal) (x : JsVal) : x ∈ firstSeen l ↔ x ∈ l := by
  induction l with
  | nil => simp [firstSeen]
  | cons c cs ih =>
    simp only [firstSeen, List.mem_cons, List.mem_filter, ih, bne_iff_ne, ne_eq]
    by_cases hx : x = c
    · simp [hx]
    · simp [hx]

theorem nodup_firstSeen (l : List JsVal) : (firstSeen l).Nodup := by
  induction l with
  | nil => simp [firstSeen]
  | cons c cs ih =>
    simp only [firstSeen, List.nodup_cons, List.mem_filter, bne_iff_ne, ne_eq, not_and,
      not_not]
    exact ⟨fun _ => trivial, ih.filter _⟩

theorem map_categoria_mk (l : List JsVal) :
    (l.map CategoriaItem.mk).map (fun item => item.categoria) = l := by
  induction l with
  | nil => rfl
  | cons c cs ih => simp only [List.map_cons, ih]

/-- C8: for every catalog state, `GET /categorias` answers 200 with a list of
category values (strings when the stored categories are strings), the same on
both servers, and leaves the state as it was; a value is in the list exactly
when some stored product has it as category, and no value is listed twice, so
a held category occurs exactly once. -/
theorem C8_categorias_distinct (db : Db) :
    ∃ cs : List JsVal,
      Index.getCategorias db = (⟨200, .categorias cs⟩, db) ∧
      Server.getCategorias db = (⟨200, .categorias cs⟩, db) ∧
      cs.Nodup ∧
      (∀ c, c ∈ cs ↔ ∃ p ∈ db.rows, p.categoria = c) ∧
      (∀ c, (∃ p ∈ db.rows, p.categoria = c) → cs.count c = 1) ∧
      (∀ c, (¬ ∃ p ∈ db.rows, p.categoria = c) → cs.count c = 0) ∧
      ((∀ p ∈ db.rows, isText p.categoria = true) → ∀ c ∈ cs, isText c = true) := by
  have hmem : ∀ c, c ∈ firstSeen (db.rows.map (fun p => p.categoria)) ↔
      ∃ p ∈ db.rows, p.categoria = c := by
    intro c
    rw [mem_firstSeen, List.mem_map]
  have hnodup := nodup_firstSeen (db.rows.map (fun p => p.categoria))
  refine ⟨firstSeen (db.rows.map (fun p => p.categoria)), ?_, ?_, hnodup, hmem, ?_, ?_, ?_⟩
  · simp only [Index.getCategorias, findManyDistinctCategoria, map_categoria_mk]
  · simp only [Server.getCategorias, findManyDistinctCategoria, map_categoria_mk]
  · intro c hc
    exact List.count_eq_one_of_mem hnodup ((hmem c).2 hc)
  · intro c hc
    exact List.count_eq_zero_of_not_mem (fun h => hc ((hmem c).1 h))
  · intro htext c hc
    obtain ⟨p, hp, rfl⟩ := (hmem c).1 hc
    exact htext p hp

/-- C8 for products created with the categories A, B, A, C in that order: the
answer lists A, B and C once each. -/
theorem C8_categorias_distinct_witness :
    (∃ p ∈ abacDb.rows, p.categoria = .str "A") ∧
    (Index.getCategorias abacDb).1 = ⟨200, .categorias [.str "A", .str "B", .str "C"]⟩ ∧
    ∃ cs : List JsVal, Server.getCategorias abacDb = (⟨200, .categorias cs⟩, abacDb) ∧
      cs.count (.str "A") = 1 ∧ cs.count (.str "B") = 1 ∧ cs.count (.str "C") = 1 := by
  refine ⟨by decide, by decide, ?_⟩
  obtain ⟨cs, _, hS, _, _, hone, _, _⟩ := C8_categorias_distinct abacDb
  exact ⟨cs, hS, hone _ (by decide), hone _ (by decide), hone _ (by decide)⟩

/-! ## Delete of a stored product -/

theorem find_of_exists (db : Db) (id : String) (h : ∃ p ∈ db.rows, p.id = id) :
    ∃ old, db.rows.find? (fun p => p.id == id) = some old := by
  cases hf : db.rows.find? (fun p => p.id == id) with
  | some old => exact ⟨old, rfl⟩
  | none =>
    obtain ⟨p, hp, hid⟩ := h
    rw [List.find?_eq_none] at hf
    exact absurd (by simpa using hid) (hf p hp)

/-- C10: for every catalog state and every identifier that a stored product
has, `DELETE /produtos/:id` issues one `delete`, responds 200 with
"Produto deletado com sucesso" and leaves exactly the rows with another
identifier, in their order and unchanged: afterwards no stored product has the
identifier and every other product is still stored. -/
theorem C10_delete_removes_only_target (db : Db) (req : Request)
    (hstored : ∃ p ∈ db.rows, p.id = req.id) :
    Index.deleteProdutos db req =
      (⟨200, .message "Produto deletado com sucesso"⟩,
        ⟨db.rows.filter (fun p => p.id != req.id), db.calls ++ [Call.delete req.id]⟩) ∧
    Server.deleteProdutos db req = Index.deleteProdutos db req ∧
    (∀ p ∈ (Index.deleteProdutos db req).2.rows, p.id ≠ req.id) ∧
    (∀ p ∈ db.rows, p.id ≠ req.id → p ∈ (Index.deleteProdutos db req).2.rows) ∧
    (∀ p ∈ (Index.deleteProdutos db req).2.rows, p ∈ db.rows) ∧
    (∀ p, p.id ≠ req.id →
      (Index.deleteProdutos db req).2.rows.count p = db.rows.count p) := by
  obtain ⟨old, hold⟩ := find_of_exists db req.id hstored
  have hI : Index.deleteProdutos db req =
      (⟨200, .message "Produto deletado com sucesso"⟩,
        ⟨db.rows.filter (fun p => p.id != req.id), db.calls ++ [Call.delete req.id]⟩) := by
    simp only [Index.deleteProdutos, findUnique, delete, hold]
  have hS : Server.deleteProdutos db req =
      (⟨200, .message "Produto deletado com sucesso"⟩,
        ⟨db.rows.filter (fun p => p.id != req.id), db.calls ++ [Call.delete req.id]⟩) := by
    simp only [Server.deleteProdutos, findUnique, delete, hold]
  refine ⟨hI, hS.trans hI.symm, ?_, ?_, ?_, ?_⟩
  · intro p hp
    rw [hI] at hp
    simpa using (List.mem_filter.1 hp).2
  · intro p hp hid
    rw [hI]
    exact List.mem_filter.2 ⟨hp, by simpa using hid⟩
  · intro p hp
    rw [hI] at hp
    exact (List.mem_filter.1 hp).1
  · intro p hid
    rw [hI]
    exact List.count_filter (by simpa using hid)

/-- C10 at the sample catalog: deleting product "1" leaves product "2". -/
theorem C10_delete_removes_only_target_witness :
    (∃ p ∈ sampleDb.rows, p.id = deleteFirst.id) ∧
    Index.deleteProdutos sampleDb deleteFirst =
      (⟨200, .message "Produto deletado com sucesso"⟩, ⟨[torta], [Call.delete "1"]⟩) :=
  ⟨by decide,
    (C10_delete_removes_only_target sampleDb deleteFirst (by decide)).1.trans (by decide)⟩

/-! ## `parseFloat` on numerals -/

theorem digitChar_facts : ∀ d : Fin 10,
    Char.isDigit (digitChar d) = true ∧ isStrWhiteSpaceChar (digitChar d) = false ∧
    (digitChar d).toNat - 48 = d.val ∧ digitChar d ≠ '-' ∧ digitChar d ≠ '+' ∧
    digitChar d ≠ '.' ∧ digitChar d ≠ 'e' ∧ digitChar d ≠ 'E' ∧ digitChar d ≠ 'I' := by
  decide

theorem takeWhile_digits (ds : List (Fin 10)) (rest : List Char)
    (hrest : ∀ c tl, rest = c :: tl → Char.isDigit c = false) :
    (ds.map digitChar ++ rest).takeWhile Char.isDigit = ds.map digitChar ∧
    (ds.map digitChar ++ rest).dropWhile Char.isDigit = rest := by
  induction ds with
  | nil =>
    cases rest with
    | nil => exact ⟨rfl, rfl⟩
    | cons c tl =>
      have hc := hrest c tl rfl
      simp [List.takeWhile, List.dropWhile, hc]
  | cons d ds ih =>
    have hd := (digitChar_facts d).1
    simp only [List.map_cons, List.cons_append, List.takeWhile_cons, List.dropWhile_cons, hd,
      if_true]
    exact ⟨by rw [ih.1], ih.2⟩

theorem foldl_digits (ds : List (Fin 10)) (acc : Nat) :
    (ds.map digitChar).foldl (fun acc c => 10 * acc + (c.toNat - 48)) acc
      = acc * 10 ^ ds.length + natOfDigits ds := by
  induction ds generalizing acc with
  | nil => simp [natOfDigits]
  | cons d ds ih =>
    simp only [List.map_cons, List.foldl_cons, ih, (digitChar_facts d).2.2.1, natOfDigits,
      List.length_cons]
    ring

theorem digitsValue_digits (ds : List (Fin 10)) :
    digitsValue (ds.map digitChar) = natOfDigits ds := by
  unfold digitsValue
  rw [foldl_digits]
  simp

theorem takeWhile_digits_all (ds : List (Fin 10)) :
    (ds.map digitChar).takeWhile Char.isDigit = ds.map digitChar := by
  have h := (takeWhile_digits ds [] (fun c tl hc => by cases hc)).1
  rwa [List.append_nil] at h

theorem exponentValue_signed (ds : List (Fin 10)) (hds : ds ≠ []) :
    exponentValue ('e' :: '-' :: ds.map digitChar) = - (natOfDigits ds : Int) := by
  have hne : (ds.map digitChar).isEmpty = false := by
    cases ds with
    | nil => exact absurd rfl hds
    | cons d ds => rfl
  simp only [exponentValue, takeWhile_digits_all, hne, digitsValue_digits]
  simp

theorem exponentValue_unsigned (ds : List (Fin 10)) (hds : ds ≠ []) :
    exponentValue ('e' :: ds.map digitChar) = (natOfDigits ds : Int) := by
  cases ds with
  | nil => exact absurd rfl hds
  | cons d ds =>
    have hd := digitChar_facts d
    have hrun : (digitChar d :: ds.map digitChar).takeWhile Char.isDigit
        = digitChar d :: ds.map digitChar := takeWhile_digits_all (d :: ds)
    have hval : digitsValue (digitChar d :: ds.map digitChar) = natOfDigits (d :: ds) :=
      digitsValue_digits (d :: ds)
    have hE : ('e' == 'e' || 'e' == 'E') = true := by decide
    simp only [exponentValue, List.map_cons, hE, if_true]
    split
    · next rest heq =>
      simp only [List.cons.injEq] at heq
      exact absurd heq.1 hd.2.2.2.2.1
    · next rest heq =>
      simp only [List.cons.injEq] at heq
      exact absurd heq.1 hd.2.2.2.1
    · simp [hrun, hval]

theorem scale10_eq (m : Nat) (e : Int) : scale10 m e = (m : ℚ) * (10 : ℚ) ^ e := by
  unfold scale10
  split
  · next h =>
    rw [Rat.mkRat_eq_div]
    obtain ⟨k, rfl⟩ := Int.eq_ofNat_of_zero_le h
    simp
  · next h =>
    rw [Rat.mkRat_eq_div]
    have hneg : 0 ≤ -e := by omega
    obtain ⟨k, hk⟩ := Int.eq_ofNat_of_zero_le hneg
    have he : e = -(k : Int) := by omega
    subst he
    simp [div_eq_mul_inv]

theorem exponentChars_head (ex : Option (Bool × List (Fin 10))) :
    ∀ c tl, exponentChars ex = c :: tl → Char.isDigit c = false ∧ c ≠ '.' := by
  intro c tl h
  match ex, h with
  | some (true, ds), h =>
    simp only [exponentChars, List.cons.injEq] at h
    rw [← h.1]; decide
  | some (false, ds), h =>
    simp only [exponentChars, List.cons.injEq] at h
    rw [← h.1]; decide

theorem exponentValue_exponentChars (ex : Option (Bool × List (Fin 10)))
    (hex : ∀ neg ds, ex = some (neg, ds) → ds ≠ []) :
    exponentValue (exponentChars ex) = exponentDenoted ex := by
  match ex, hex with
  | none, _ => rfl
  | some (true, ds), hex => exact exponentValue_signed ds (hex true ds rfl)
  | some (false, ds), hex => exact exponentValue_unsigned ds (hex false ds rfl)

theorem natOfDigits_append (xs ys : List (Fin 10)) :
    natOfDigits (xs ++ ys) = natOfDigits xs * 10 ^ ys.length + natOfDigits ys := by
  induction xs with
  | nil => simp [natOfDigits]
  | cons d ds ih =>
    show d.val * 10 ^ (ds ++ ys).length + natOfDigits (ds ++ ys)
      = (d.val * 10 ^ ds.length + natOfDigits ds) * 10 ^ ys.length + natOfDigits ys
    rw [ih, List.length_append]
    ring

theorem infinity_not_numeral (d : Fin 10) (rest : List Char) :
    "Infinity".toList.isPrefixOf (digitChar d :: rest) = false := by
  have hd : ('I' == digitChar d) = false := by
    have := (digitChar_facts d).2.2.2.2.2.2.2.2
    simpa using fun h => this h.symm
  show List.isPrefixOf ('I' :: "nfinity".toList) (digitChar d :: rest) = false
  simp only [List.isPrefixOf, hd, Bool.false_and]

theorem parseUnsigned_numeral (ip fp : List (Fin 10)) (ex : Option (Bool × List (Fin 10)))
    (hip : ip ≠ []) (hex : ∀ neg ds, ex = some (neg, ds) → ds ≠ []) :
    parseUnsigned (ip.map digitChar ++ (fractionChars fp ++ exponentChars ex)) =
      some (false, ((natOfDigits ip : ℚ) + (natOfDigits fp : ℚ) / 10 ^ fp.length)
        * 10 ^ exponentDenoted ex) := by
  have hexp := exponentValue_exponentChars ex hex
  have hipne : (ip.map digitChar).isEmpty = false := by
    cases ip with
    | nil => exact absurd rfl hip
    | cons d ds => rfl
  have hinf : "Infinity".toList.isPrefixOf
      (ip.map digitChar ++ (fractionChars fp ++ exponentChars ex)) = false := by
    cases ip with
    | nil => exact absurd rfl hip
    | cons d ds => exact infinity_not_numeral d _
  unfold parseUnsigned
  simp only [hinf, Bool.false_eq_true, if_false]
  cases fp with
  | nil =>
    have hrest : ∀ c tl, exponentChars ex = c :: tl → Char.isDigit c = false :=
      fun c tl h => (exponentChars_head ex c tl h).1
    have htd := takeWhile_digits ip (exponentChars ex) hrest
    simp only [fractionChars, List.isEmpty_nil, if_true, List.nil_append, htd.1, htd.2, hipne]
    split
    · next r2 heq => exact absurd rfl (exponentChars_head ex _ _ heq).2
    · simp only [Bool.false_eq_true, if_false, Option.some.injEq, Prod.mk.injEq, true_and]
      rw [scale10_eq, digitsValue_digits, hexp]
      simp [natOfDigits]
  | cons f fs =>
    have hrest : ∀ c tl, ('.' :: ((f :: fs).map digitChar ++ exponentChars ex)) = c :: tl →
        Char.isDigit c = false := by
      intro c tl h
      simp only [List.cons.injEq] at h
      rw [← h.1]; decide
    have htd := takeWhile_digits ip ('.' :: ((f :: fs).map digitChar ++ exponentChars ex)) hrest
    have hfd := takeWhile_digits (f :: fs) (exponentChars ex)
      (fun c tl h => (exponentChars_head ex c tl h).1)
    have hfrac : fractionChars (f :: fs) ++ exponentChars ex
        = '.' :: ((f :: fs).map digitChar ++ exponentChars ex) := rfl
    rw [hfrac]
    simp only [htd.1, htd.2, hfd.1, hfd.2, hipne, Bool.false_and,
      Bool.false_eq_true, if_false, Option.some.injEq, Prod.mk.injEq, true_and]
    rw [scale10_eq, ← List.map_append, digitsValue_digits, hexp, natOfDigits_append]
    have hlen : ((f :: fs).map digitChar).length = (f :: fs).length := List.length_map _ _
    rw [hlen]
    have h10 : ((10 : ℚ) ^ (f :: fs).length) ≠ 0 := by positivity
    rw [zpow_sub₀ (by norm_num : (10 : ℚ) ≠ 0), zpow_natCast]
    push_cast
    field_simp

theorem parseFloatString_numeral (t : NumericText) (ht : t.WellFormed) :
    parseFloatString t.text = numberOfMagnitude t.negative t.magnitude := by
  obtain ⟨neg, ip, fp, ex⟩ := t
  obtain ⟨hip, hex⟩ := ht
  simp only at hip hex
  have hparse := parseUnsigned_numeral ip fp ex hip hex
  cases ip with
  | nil => exact absurd rfl hip
  | cons d ds =>
    have hd := digitChar_facts d
    cases neg with
    | true =>
      have hchars : (NumericText.mk true (d :: ds) fp ex).text.toList
          = '-' :: ((d :: ds).map digitChar ++ (fractionChars fp ++ exponentChars ex)) := rfl
      have hws : isStrWhiteSpaceChar '-' = false := by decide
      unfold parseFloatString
      have hsign : splitSign ('-' ::
          ((d :: ds).map digitChar ++ (fractionChars fp ++ exponentChars ex)))
          = (true, (d :: ds).map digitChar ++ (fractionChars fp ++ exponentChars ex)) := rfl
      simp only [hchars, List.dropWhile_cons, hws, Bool.false_eq_true, if_false, hsign, hparse]
      rfl
    | false =>
      have hchars : (NumericText.mk false (d :: ds) fp ex).text.toList
          = digitChar d :: (ds.map digitChar ++ (fractionChars fp ++ exponentChars ex)) := rfl
      have hbody : (d :: ds).map digitChar ++ (fractionChars fp ++ exponentChars ex)
          = digitChar d :: (ds.map digitChar ++ (fractionChars fp ++ exponentChars ex)) := rfl
      rw [hbody] at hparse
      unfold parseFloatString
      simp only [hchars, List.dropWhile_cons, hd.2.1, Bool.false_eq_true, if_false]
      have hsign : splitSign (digitChar d ::
          (ds.map digitChar ++ (fractionChars fp ++ exponentChars ex)))
          = (false, digitChar d ::
            (ds.map digitChar ++ (fractionChars fp ++ exponentChars ex))) := by
        unfold splitSign
        split
        · next rest heq =>
          simp only [List.cons.injEq] at heq
          exact absurd heq.1 hd.2.2.2.1
        · next rest heq =>
          simp only [List.cons.injEq] at heq
          exact absurd heq.1 hd.2.2.2.2.1
        · rfl
      simp only [hsign, hparse]
      rfl

/-- What `parseFloat` returns on the text of a well-formed numeral: the Number
value for the magnitude the numeral denotes, with its sign. -/
theorem parseFloat_numeral (t : NumericText) (ht : t.WellFormed) :
    parseFloat (.str t.text) = some (numberOfMagnitude t.negative t.magnitude) := by
  show (some (parseFloatString t.text)) = _
  rw [parseFloatString_numeral t ht]

/-! ## Create: round trip and new identifier -/

theorem filter_id_append_fresh (rows : List Produto) (r : Produto)
    (hfresh : ∀ p ∈ rows, p.id ≠ r.id) :
    (rows ++ [r]).filter (fun p => p.id == r.id) = [r] := by
  have hnone : rows.filter (fun p => p.id == r.id) = [] := by
    rw [List.filter_eq_nil_iff]
    intro p hp
    simpa using hfresh p hp
  rw [List.filter_append, hnone]
  simp

theorem overflowNumeral_wellFormed : overflowNumeral.WellFormed := by
  refine ⟨by decide, ?_⟩
  intro neg ds h
  have h2 : (false, ([4, 0, 0] : List (Fin 10))) = (neg, ds) := Option.some.inj h
  rw [← (Prod.mk.inj h2).2]
  decide

theorem unroundedNumeral_wellFormed : unroundedNumeral.WellFormed :=
  ⟨by decide, fun _ _ h => by cases h⟩

theorem priceNumeral_wellFormed : priceNumeral.WellFormed :=
  ⟨by decide, fun _ _ h => by cases h⟩

set_option maxRecDepth 100000 in
set_option exponentiation.threshold 2000 in
/-- C9, the claim at two numeric texts.  "1e400" denotes `10 ^ 400` and is
numeric-parseable, yet the record created from it holds `Infinity`;
"9007199254740993" denotes that integer, yet the record created from it holds
9007199254740992.  In both cases the value is not the number the supplied
text denotes. -/
theorem C9_post_value_counterexample :
    overflowCreate.body.valor = .str overflowNumeral.text ∧
    overflowNumeral.magnitude = 10 ^ 400 ∧
    numericParseable overflowCreate.body.valor = true ∧
    Index.postProdutos strictProvider emptyDb overflowCreate =
      (⟨201, .produto ⟨"0", .str "Bolos", .str "Bolo de milho", .null,
          .num (.inf false), .null⟩⟩,
        ⟨[⟨"0", .str "Bolos", .str "Bolo de milho", .null, .num (.inf false), .null⟩],
          [Call.create ⟨.str "Bolos", .str "Bolo de milho", .undefined, .num (.inf false),
            .undefined⟩]⟩) ∧
    unroundedCreate.body.valor = .str unroundedNumeral.text ∧
    unroundedNumeral.magnitude = 9007199254740993 ∧
    Server.postProdutos strictProvider emptyDb unroundedCreate =
      (⟨201, .produto ⟨"0", .str "Bolos", .str "Bolo de milho", .null,
          .num (.fin 9007199254740992), .null⟩⟩,
        ⟨[⟨"0", .str "Bolos", .str "Bolo de milho", .null, .num (.fin 9007199254740992),
            .null⟩],
          [Call.create ⟨.str "Bolos", .str "Bolo de milho", .undefined,
            .num (.fin 9007199254740992), .null⟩]⟩) := by
  refine ⟨by decide, ?_, by decide, by decide, by decide, ?_, by decide⟩
  · have h1 : natOfDigits overflowNumeral.intDigits = 1 := by decide
    have h2 : natOfDigits overflowNumeral.fracDigits = 0 := by decide
    have h3 : exponentDenoted overflowNumeral.exponent = 400 := by decide
    have h4 : overflowNumeral.fracDigits.length = 0 := by decide
    rw [NumericText.magnitude, h1, h2, h3, h4]
    norm_num
  · have h1 : natOfDigits unroundedNumeral.intDigits = 9007199254740993 := by decide
    have h2 : natOfDigits unroundedNumeral.fracDigits = 0 := by decide
    have h3 : exponentDenoted unroundedNumeral.exponent = 0 := by decide
    have h4 : unroundedNumeral.fracDigits.length = 0 := by decide
    rw [NumericText.magnitude, h1, h2, h3, h4]
    norm_num

/-- C9 as amended: for every create input whose value `parseFloat` reads as a
finite number `q`, and the provider that assigns `longerId` identifiers with
any validation, a create the provider accepts answers 201 with a record whose
category, name and description are the supplied ones (`null` for one left
out), whose value is the number `q`, and whose identifier no product stored
before has; `GET /produtos` then lists the old rows followed by that record,
and it is the only row under its identifier.  When the supplied value is the
text of a well-formed numeral, `q` is the double nearest to the number the
numeral denotes. -/
theorem C9_post_round_trip (acceptsCreate : List Produto → ProdutoData → Bool)
    (acceptsUpdate : List Produto → String → ProdutoData → Bool) (db : Db) (req : Request)
    (q : ℚ) (hparse : parseFloat req.body.valor = some (.fin q)) :
    (acceptsCreate db.rows
        ⟨req.body.categoria, req.body.nome, req.body.descricao, .num (.fin q),
          req.body.imagem⟩ = true →
      ∃ r db1, Index.postProdutos (providerWith acceptsCreate acceptsUpdate) db req
          = (⟨201, .produto r⟩, db1) ∧
        r.categoria = orNull req.body.categoria ∧ r.nome = orNull req.body.nome ∧
        r.descricao = orNull req.body.descricao ∧
        r.valor = .num (.fin q) ∧
        (∀ p ∈ db.rows, p.id ≠ r.id) ∧
        (Index.getProdutos db1).1 = ⟨200, .produtos (db.rows ++ [r])⟩ ∧
        (findMany db1).filter (fun p => p.id == r.id) = [r]) ∧
    (acceptsCreate db.rows
        ⟨req.body.categoria, req.body.nome, req.body.descricao, .num (.fin q),
          Server.postImagem req⟩ = true →
      ∃ r db1, Server.postProdutos (providerWith acceptsCreate acceptsUpdate) db req
          = (⟨201, .produto r⟩, db1) ∧
        r.categoria = orNull req.body.categoria ∧ r.nome = orNull req.body.nome ∧
        r.descricao = orNull req.body.descricao ∧
        r.valor = .num (.fin q) ∧
        (∀ p ∈ db.rows, p.id ≠ r.id) ∧
        (Server.getProdutos db1).1 = ⟨200, .produtos (db.rows ++ [r])⟩ ∧
        (findMany db1).filter (fun p => p.id == r.id) = [r]) ∧
    (∀ t : NumericText, t.WellFormed → req.body.valor = .str t.text →
      numberOfMagnitude t.negative t.magnitude = .fin q) ∧
    (∀ v, v ≠ .undefined → orNull v = v) := by
  have hfresh : ∀ p ∈ db.rows, p.id ≠ longerId db.rows :=
    fun p hp => longerId_fresh db.rows p hp
  refine ⟨?_, ?_, ?_, ?_⟩
  · intro hacc
    have hd : Index.postData req = some ⟨req.body.categoria, req.body.nome,
        req.body.descricao, .num (.fin q), req.body.imagem⟩ := by
      simp only [Index.postData, hparse, Option.map_some']
    have hrun := index_postProdutos_run (providerWith acceptsCreate acceptsUpdate) db req _ hd
    have hacc1 : (providerWith acceptsCreate acceptsUpdate).acceptsCreate db.rows
        ⟨req.body.categoria, req.body.nome, req.body.descricao, .num (.fin q),
          req.body.imagem⟩ = true := hacc
    rw [if_pos hacc1] at hrun
    exact ⟨_, _, hrun, rfl, rfl, rfl, rfl, hfresh, rfl,
      filter_id_append_fresh db.rows _ hfresh⟩
  · intro hacc
    have hd : Server.postData req = some ⟨req.body.categoria, req.body.nome,
        req.body.descricao, .num (.fin q), Server.postImagem req⟩ := by
      simp only [Server.postData, hparse, Option.map_some']
    have hrun := server_postProdutos_run (providerWith acceptsCreate acceptsUpdate) db req _ hd
    have hacc1 : (providerWith acceptsCreate acceptsUpdate).acceptsCreate db.rows
        ⟨req.body.categoria, req.body.nome, req.body.descricao, .num (.fin q),
          Server.postImagem req⟩ = true := hacc
    rw [if_pos hacc1] at hrun
    exact ⟨_, _, hrun, rfl, rfl, rfl, rfl, hfresh, rfl,
      filter_id_append_fresh db.rows _ hfresh⟩
  · intro t ht htext
    have h := parseFloat_numeral t ht
    rw [← htext, hparse] at h
    exact (Option.some.inj h).symm
  · intro v hv
    cases v <;> first | rfl | exact absurd rfl hv

/-- C9 as amended, at a create with the value text "12.50" on the sample
catalog: the numeral denotes 12.5, the created record holds the number 12.5
and an identifier no sample product has. -/
theorem C9_post_round_trip_witness :
    parseFloat uploadCreate.body.valor = some (.fin 12.5) ∧
    uploadCreate.body.valor = .str priceNumeral.text ∧
    numberOfMagnitude priceNumeral.negative priceNumeral.magnitude = .fin 12.5 ∧
    ∃ r db1, Server.postProdutos strictProvider sampleDb uploadCreate
        = (⟨201, .produto r⟩, db1) ∧
      r.categoria = .str "Bolos" ∧ r.nome = .str "Bolo de milho" ∧
      r.valor = .num (.fin 12.5) ∧
      (∀ p ∈ sampleDb.rows, p.id ≠ r.id) ∧
      (findMany db1).filter (fun p => p.id == r.id) = [r] := by
  have hq : (mkRat 25 2 : ℚ) = 12.5 := by norm_num
  have hparse : parseFloat uploadCreate.body.valor = some (.fin 12.5) := by
    rw [← hq]; decide
  have hall := C9_post_round_trip (fun _ d => schemaAccepts d) (fun _ _ d => schemaAccepts d)
    sampleDb uploadCreate 12.5 hparse
  refine ⟨hparse, by decide, hall.2.2.1 priceNumeral priceNumeral_wellFormed (by decide), ?_⟩
  obtain ⟨r, db1, hrun, h1, h2, _, h4, h5, _, h7⟩ := hall.2.1 (by rw [← hq]; decide)
  exact ⟨r, db1, hrun, h1, h2, h4, h5, h7⟩

end GeizaBolos
